import Mathlib

/-!
# Verification of the `surface` SVI calibration library

Shallow embedding of the SVI volatility-surface calibration pipeline
(`src/models/svi/svi_model.rs`, `src/models/svi/svi_calibrator.rs`,
`src/calibration/pipeline.rs`, `src/lib.rs`, `src/models/mod.rs`).

`f64` values are modelled as real numbers; the `is_finite` checks of the
source are therefore vacuously true and noted where they occur.  The two
external optimizers (`cmaes_lbfgsb::canonical_cmaes_optimize` and
`cmaes_lbfgsb::lbfgsb_optimize`, an external crate) are modelled as opaque
function parameters, since the pipeline treats them as black boxes.
-/

namespace Surface

noncomputable section

open Classical

/-- One option quote (`MarketDataRow` in `src/calibration/types.rs`). -/
structure MarketDataRow where
  option_type : String
  strike_price : ℝ
  underlying_price : ℝ
  years_to_exp : ℝ
  market_iv : ℝ
  vega : ℝ
  expiration : ℤ

/-- Embedding of `FixedParameters` in `src/calibration/types.rs`. -/
structure FixedParameters where
  r : ℝ
  q : ℝ

/-- SVI parameter tuple (`SVIParams` in `src/models/svi/svi_model.rs`). -/
structure SVIParams where
  t : ℝ
  a : ℝ
  b : ℝ
  rho : ℝ
  m : ℝ
  sigma : ℝ

/-- Embedding of `validate_svi_params` in `src/models/svi/svi_model.rs`: `t > 0`, `b > 0`,
`rho ∈ (-1,1)`, `sigma > 0` and the wing no-arbitrage constraint
`a + b*sigma*sqrt(1-rho^2) ≥ 0`.  The `is_finite` checks of the source are
vacuous over `ℝ`. -/
def validate_svi_params (t a b rho m sigma : ℝ) : Prop :=
  0 < t ∧ 0 < b ∧ (-1 < rho ∧ rho < 1) ∧ 0 < sigma ∧
    0 ≤ a + b * sigma * Real.sqrt (1 - rho * rho) ∧ m = m

/-- Embedding of `SVIParams::new`: validating constructor. -/
def SVIParams.new (t a b rho m sigma : ℝ) : Option SVIParams :=
  if validate_svi_params t a b rho m sigma then
    some ⟨t, a, b, rho, m, sigma⟩
  else
    none

/-- Embedding of `SVISlice` in `src/models/svi/svi_model.rs`. -/
structure SVISlice where
  params : SVIParams

/-- Embedding of `SVISlice::new`. -/
def SVISlice.new (params : SVIParams) : SVISlice := ⟨params⟩

/-- Embedding of `SVISlice::total_variance_at_k`:
`w(k) = a + b * (rho*(k-m) + sqrt((k-m)^2 + sigma^2))`. -/
def SVISlice.total_variance_at_k (s : SVISlice) (k : ℝ) : ℝ :=
  let k_minus_m := k - s.params.m
  let sqrt_term :=
    Real.sqrt (k_minus_m * k_minus_m + s.params.sigma * s.params.sigma)
  s.params.a + s.params.b * (s.params.rho * k_minus_m + sqrt_term)

/-- Embedding of `SVISlice::implied_vol`: returns the constant `1e-6` when the total
variance is non-positive, else `sqrt(w(k)/t)`. -/
def SVISlice.implied_vol (s : SVISlice) (k : ℝ) : ℝ :=
  let total_var := s.total_variance_at_k k
  if total_var ≤ 0 then 1e-6
  else Real.sqrt (total_var / s.params.t)

/-- Embedding of `log_moneyness` in `src/models/mod.rs`: `ln(K/S)`. -/
def log_moneyness (strike spot : ℝ) : ℝ := Real.log (strike / spot)

/-- Embedding of `SviModelParams` in `src/model_params.rs`. -/
structure SviModelParams where
  atm_boost_factor : ℝ
  use_vega_weighting : Bool

/-- Embedding of `SviModelParams::default`: ATM boost `25.0`, vega weighting on. -/
def SviModelParams.default : SviModelParams := ⟨25, true⟩

/-- Embedding of `SVIParamBounds` in `src/models/svi/svi_calibrator.rs`. -/
structure SVIParamBounds where
  a : ℝ × ℝ
  b : ℝ × ℝ
  rho : ℝ × ℝ
  m : ℝ × ℝ
  sigma : ℝ × ℝ

/-- Embedding of `SVIParamBounds::default`. -/
def SVIParamBounds.default : SVIParamBounds :=
  ⟨(-0.5, 0.5), (0.01, 2), (-0.99, -0.01), (-1, 1), (0.01, 2)⟩

/-- Conversion `From<&[(f64, f64)]> for SVIParamBounds`: a slice of length ≠ 5
falls back to the default bounds. -/
def SVIParamBounds.fromList (bounds : List (ℝ × ℝ)) : SVIParamBounds :=
  match bounds with
  | [a, b, rho, m, sigma] => ⟨a, b, rho, m, sigma⟩
  | _ => SVIParamBounds.default

/-- Embedding of `SVIModelCalibrator` in `src/models/svi/svi_calibrator.rs`. -/
structure SVIModelCalibrator where
  expiration : ℤ × ℝ
  param_bounds : List (ℝ × ℝ)
  params : SviModelParams
  prev_solution : Option (List ℝ)
  temporal_reg_lambda : ℝ

/-- Embedding of `SVIModelCalibrator::new`: groups the rows by expiration tag and fails
unless exactly one distinct tag is present (an empty slice has zero tags and
also fails).  The slice time is the average of the rows' `years_to_exp`.
The type-erased `model_params` bag is modelled as an `Option SviModelParams`;
a missing value (or, in the source, a failed downcast) yields the default. -/
def SVIModelCalibrator.new (data : List MarketDataRow)
    (param_bounds_opt : Option SVIParamBounds)
    (model_params : Option SviModelParams) : Option SVIModelCalibrator :=
  match data with
  | [] => none
  | r :: _ =>
    if (data.map (·.expiration)).dedup.length = 1 then
      let times := data.map (·.years_to_exp)
      let single_avg_t := times.sum / times.length
      let bounds := param_bounds_opt.getD SVIParamBounds.default
      some { expiration := (r.expiration, single_avg_t),
             param_bounds := [bounds.a, bounds.b, bounds.rho, bounds.m, bounds.sigma],
             params := model_params.getD SviModelParams.default,
             prev_solution := none,
             temporal_reg_lambda := 0 }
    else none

/-- Embedding of `SVIModelCalibrator::set_prev_solution`: stored only when the length
matches `param_count` (the length of `param_bounds`). -/
def SVIModelCalibrator.set_prev_solution (c : SVIModelCalibrator)
    (prev_sol : List ℝ) : SVIModelCalibrator :=
  if prev_sol.length = c.param_bounds.length then
    { c with prev_solution := some prev_sol }
  else c

/-- Embedding of `SVIModelCalibrator::set_temporal_reg_lambda`: clamps at zero. -/
def SVIModelCalibrator.set_temporal_reg_lambda (c : SVIModelCalibrator)
    (lambda : ℝ) : SVIModelCalibrator :=
  { c with temporal_reg_lambda := max lambda 0 }

/-- The per-point weight of `SVIModelCalibrator::evaluate_objective`
(svi_calibrator.rs lines 248-261): optional vega weight (the raw vega when
positive, `1.0` otherwise, and `1.0` when vega weighting is disabled) times
the ATM emphasis `exp(-atm_boost_factor * |k|)`. -/
def pointWeight (p : SviModelParams) (vega k : ℝ) : ℝ :=
  let vega_weight := if p.use_vega_weighting then (if 0 < vega then vega else 1) else 1
  let atm_weight := Real.exp (-p.atm_boost_factor * |k|)
  vega_weight * atm_weight

/-- Accumulator of the observation loop in `evaluate_objective`. -/
structure ObjAcc where
  weighted_error_sum : ℝ
  weight_sum : ℝ
  valid_points : ℕ

/-- One iteration of the observation loop of `evaluate_objective`:
skip rows of a different expiry and rows with non-positive model or market
IV, otherwise accumulate the weighted squared total-variance error. -/
def objStep (p : SviModelParams) (exp_ts : ℤ) (t : ℝ) (slice : SVISlice)
    (acc : ObjAcc) (row : MarketDataRow) : ObjAcc :=
  if row.expiration ≠ exp_ts then acc
  else
    let k := log_moneyness row.strike_price row.underlying_price
    let model_iv := slice.implied_vol k
    if model_iv ≤ 0 ∨ row.market_iv ≤ 0 then acc
    else
      let model_w := model_iv * model_iv * t
      let market_w := row.market_iv * row.market_iv * t
      let diff := model_w - market_w
      let squared_error := diff * diff
      let weight := pointWeight p row.vega k
      ⟨acc.weighted_error_sum + weight * squared_error,
       acc.weight_sum + weight, acc.valid_points + 1⟩

/-- Embedding of `SVIModelCalibrator::evaluate_objective`.  The source asserts
`x.len() == 5` and panics otherwise; the catch-all branch is unreachable for
the calls made by the pipeline and is given the inert value `0`. -/
def evaluate_objective (c : SVIModelCalibrator) (x : List ℝ)
    (data : List MarketDataRow) : ℝ :=
  match x with
  | [a, b, rho, m, sigma] =>
    let exp_ts := c.expiration.1
    let t := c.expiration.2
    match SVIParams.new t a b rho m sigma with
    | none => 1e12
    | some params =>
      let slice := SVISlice.new params
      let acc := data.foldl (objStep c.params exp_ts t slice) ⟨0, 0, 0⟩
      if acc.valid_points = 0 ∨ acc.weight_sum ≤ 1e-12 then 1e12
      else
        let obj := Real.sqrt (acc.weighted_error_sum / acc.weight_sum)
        match c.prev_solution with
        | some prev =>
          if 0 < c.temporal_reg_lambda ∧ prev.length = x.length then
            obj + (List.zipWith (fun v p => (v - p) ^ 2) x prev).sum *
              c.temporal_reg_lambda
          else obj
        | none => obj
  | _ => 0

/-- Recursion underlying `expand_bounds_if_needed`: `iter_mut().zip(params)`
pairs bounds with parameter values (truncating at the shorter list, extra
bounds left untouched); a coordinate within `range * proximity_threshold` of
an edge widens that edge by `range * expansion_factor`. -/
def expandBoundsAux (proximity_threshold expansion_factor : ℝ) :
    List (ℝ × ℝ) → List ℝ → List (ℝ × ℝ) × Bool
  | [], _ => ([], false)
  | bs, [] => (bs, false)
  | (l, u) :: bs, p :: ps =>
    let range := u - l
    let lower_thresh := l + range * proximity_threshold
    let upper_thresh := u - range * proximity_threshold
    let l' := if p ≤ lower_thresh then l - range * expansion_factor else l
    let adj1 : Bool := if p ≤ lower_thresh then true else false
    let u' := if p ≥ upper_thresh then u + range * expansion_factor else u
    let adj2 : Bool := if p ≥ upper_thresh then true else false
    let rest := expandBoundsAux proximity_threshold expansion_factor bs ps
    ((l', u') :: rest.1, adj1 || adj2 || rest.2)

/-- Embedding of `SVIModelCalibrator::expand_bounds_if_needed`: widens the stored bounds
in place and reports whether any adjustment branch fired. -/
def SVIModelCalibrator.expand_bounds_if_needed (c : SVIModelCalibrator)
    (params : List ℝ) (proximity_threshold expansion_factor : ℝ) :
    SVIModelCalibrator × Bool :=
  let r := expandBoundsAux proximity_threshold expansion_factor
    c.param_bounds params
  ({ c with param_bounds := r.1 }, r.2)

/-- Embedding of `FIVE_MINUTES_IN_YEARS` in `src/models/svi/svi_model.rs`. -/
def FIVE_MINUTES_IN_YEARS : ℝ := 5 / (60 * 24 * 365)

/-- Embedding of `SVISlice::total_variance` (the `SurfaceModel` impl): refuses a query
whose time is more than five minutes from the slice time, then evaluates
`w(k)` and rejects a negative result.  The `is_finite` guards of the source
are vacuous over `ℝ`. -/
def SVISlice.total_variance (s : SVISlice) (k t : ℝ) : Except Unit ℝ :=
  if FIVE_MINUTES_IN_YEARS < |t - s.params.t| then .error ()
  else
    let total_var := s.total_variance_at_k k
    if total_var < 0 then .error ()
    else .ok total_var

/-- Rust's `str::to_lowercase`, restricted to the ASCII option-type tags
(`"call"` / `"put"`) the source compares against. -/
def toLowercase (s : String) : String := String.mk (s.data.map Char.toLower)

/-- Embedding of `erf` in `src/models/mod.rs`: Abramowitz-Stegun polynomial
approximation of the error function. -/
def erf (x : ℝ) : ℝ :=
  let a1 : ℝ := 0.254829592
  let a2 : ℝ := -0.284496736
  let a3 : ℝ := 1.421413741
  let a4 : ℝ := -1.453152027
  let a5 : ℝ := 1.061405429
  let p : ℝ := 0.3275911
  let sign : ℝ := if x < 0 then -1 else 1
  let x' := |x|
  let t := 1 / (1 + p * x')
  let y := 1 - (((((a5 * t + a4) * t) + a3) * t + a2) * t + a1) * t *
    Real.exp (-x' * x')
  sign * y

/-- Embedding of `normal_cdf` in `src/models/mod.rs`. -/
def normal_cdf (x : ℝ) : ℝ := 0.5 * (1 + erf (x / Real.sqrt 2))

/-- Embedding of `black_scholes_price` in `src/models/mod.rs`: errors on non-positive
volatility or time and on an option type other than (lowercased) `"call"`
or `"put"`. -/
def black_scholes_price (option_type : String) (s k r q t sigma : ℝ) :
    Except Unit ℝ :=
  if sigma ≤ 0 ∨ t ≤ 0 then .error ()
  else
    let d1 := (Real.log (s / k) + (r - q + 0.5 * sigma * sigma) * t) /
      (sigma * Real.sqrt t)
    let d2 := d1 - sigma * Real.sqrt t
    if toLowercase option_type = "call" then
      .ok (s * Real.exp (-q * t) * normal_cdf d1 -
        k * Real.exp (-r * t) * normal_cdf d2)
    else if toLowercase option_type = "put" then
      .ok (k * Real.exp (-r * t) * normal_cdf (-d2) -
        s * Real.exp (-q * t) * normal_cdf (-d1))
    else .error ()

/-- Embedding of `OptionPricingResult` in `src/models/mod.rs`. -/
structure OptionPricingResult where
  price : ℝ
  model_iv : ℝ

/-- Embedding of `price_option` in `src/models/mod.rs`, specialised (as in `lib.rs`) to
the `SVISlice` surface model. -/
def price_option (option_type : String) (strike spot r q t : ℝ)
    (model : SVISlice) : Except Unit OptionPricingResult :=
  let k := log_moneyness strike spot
  match model.total_variance k t with
  | .error e => .error e
  | .ok total_var =>
    if total_var ≤ 0 then .error ()
    else
      let model_iv := Real.sqrt (total_var / t)
      match black_scholes_price option_type spot strike r q t model_iv with
      | .error e => .error e
      | .ok price => .ok ⟨price, model_iv⟩

/-- Embedding of `PricingResult` in `src/calibration/types.rs`. -/
structure PricingResult where
  option_type : String
  strike_price : ℝ
  underlying_price : ℝ
  years_to_exp : ℝ
  model_price : ℝ
  model_iv : ℝ

/-- The per-row body of `price_with_svi` (`src/lib.rs`): price the row,
defaulting to zero price and zero IV when `price_option` fails. -/
def priceRow (slice : SVISlice) (r q : ℝ) (row : MarketDataRow) :
    PricingResult :=
  let pricing_result :=
    match price_option row.option_type row.strike_price row.underlying_price
        r q row.years_to_exp slice with
    | .ok pr => pr
    | .error _ => ⟨0, 0⟩
  ⟨row.option_type, row.strike_price, row.underlying_price, row.years_to_exp,
   pricing_result.price, pricing_result.model_iv⟩

/-- Rust `partial_cmp` on `f64`, modelled with `none` standing for the
incomparable (NaN) case: `Option ℝ` is a real number or NaN. -/
def f64PartialCmp (a b : Option ℝ) : Option Ordering :=
  match a, b with
  | some x, some y => some (if x < y then .lt else if x = y then .eq else .gt)
  | _, _ => none

/-- The comparator closure of the final sort in `price_with_svi`:
`partial_cmp(..).unwrap_or(Ordering::Equal)` — total even on NaN keys. -/
def strikeSortCmp (a b : Option ℝ) : Ordering := (f64PartialCmp a b).getD .eq

/-- The same comparator at the `ℝ` level of the embedding (where the NaN
branch of `unwrap_or` cannot fire). -/
def strikeCmpR (a b : ℝ) : Ordering := (strikeSortCmp (some a) (some b))

/-- Embedding of `price_with_svi` in `src/lib.rs`: one `PricingResult` per input row,
then a stable sort ascending by strike using the total comparator. -/
def price_with_svi (params : SVIParams) (market_data : List MarketDataRow)
    (fixed_params : FixedParameters) : List PricingResult :=
  let slice := SVISlice.new params
  let results := market_data.map (priceRow slice fixed_params.r fixed_params.q)
  results.mergeSort (fun a b => strikeCmpR a.strike_price b.strike_price ≠ .gt)

/-- Embedding of `CmaEsConfig` in `src/calibration/config.rs`. -/
structure CmaEsConfig where
  seed : Option ℕ
  parallel_eval : Bool
  verbosity : ℕ
  ipop_restarts : ℕ
  ipop_increase_factor : ℝ
  max_evaluations : ℕ
  sigma0 : ℝ
  bipop_restarts : ℕ
  lbfgsb_enabled : Bool
  lbfgsb_max_iterations : ℕ
  total_evals_budget : ℕ
  use_subrun_budgeting : Bool
  mini_cmaes_on_refinement : Bool

/-- Embedding of `CmaEsConfig::default`. -/
def CmaEsConfig.default : CmaEsConfig :=
  { seed := some 123456, parallel_eval := true, verbosity := 0,
    ipop_restarts := 0, ipop_increase_factor := 2, max_evaluations := 100000,
    sigma0 := 0.3, bipop_restarts := 5, lbfgsb_enabled := true,
    lbfgsb_max_iterations := 200, total_evals_budget := 200000,
    use_subrun_budgeting := false, mini_cmaes_on_refinement := true }

/-- Embedding of `AdaptiveBoundsConfig` in `src/calibration/config.rs`. -/
structure AdaptiveBoundsConfig where
  enabled : Bool
  max_iterations : ℕ
  proximity_threshold : ℝ
  expansion_factor : ℝ

/-- Embedding of `AdaptiveBoundsConfig::default`. -/
def AdaptiveBoundsConfig.default : AdaptiveBoundsConfig :=
  ⟨false, 3, 0.1, 0.25⟩

/-- Embedding of `OptimizationConfig` in `src/calibration/config.rs`. -/
structure OptimizationConfig where
  max_iterations : ℕ
  tolerance : ℝ
  fixed_params : FixedParameters
  pop_size : ℕ
  max_gen : ℕ
  obj_tol : ℝ
  alpha_cov : ℝ
  alpha_sigma : ℝ
  target_sr : ℝ
  cmaes : CmaEsConfig
  adaptive_bounds : AdaptiveBoundsConfig

/-- Embedding of `OptimizationConfig::default`. -/
def OptimizationConfig.default : OptimizationConfig :=
  { max_iterations := 5000, tolerance := 1e-6, fixed_params := ⟨0.02, 0⟩,
    pop_size := 50, max_gen := 100, obj_tol := 1e-8, alpha_cov := 0.2,
    alpha_sigma := 0.5, target_sr := 0.2, cmaes := CmaEsConfig.default,
    adaptive_bounds := AdaptiveBoundsConfig.default }

/-- Typed failures of the external L-BFGS-B refiner (spec section 4.5). -/
inductive LbfgsbError where
  | lineSearchFailure : LbfgsbError
  | maxIterations : LbfgsbError
  | numericalError : LbfgsbError

/-- Opaque model of the two entry points of the external `cmaes_lbfgsb`
crate used by `src/calibration/pipeline.rs`: `canonical_cmaes_optimize`
(objective, bounds, optional distribution center → best `(f, x)` pair) and
`lbfgsb_optimize` (start, bounds, objective, iteration cap, tolerance →
`(f, x)` or a typed failure).  The pipeline treats both as black boxes. -/
structure ExternalOptimizers where
  cmaes : (List ℝ → ℝ) → List (ℝ × ℝ) → Option (List ℝ) → ℝ × List ℝ
  lbfgsb : List ℝ → List (ℝ × ℝ) → (List ℝ → ℝ) → ℕ → ℝ →
    Except LbfgsbError (ℝ × List ℝ)

/-- Stage 1 of `calibrate_model` (pipeline.rs lines 59-158): mini CMA-ES
around the warm start when `mini_cmaes_on_refinement` is set, the warm start
itself otherwise, and a full CMA-ES run when no guess is given; the returned
point is re-scored with the standard objective. -/
def calibrate_model_stage1 (ext : ExternalOptimizers)
    (model : SVIModelCalibrator) (data : List MarketDataRow)
    (config : OptimizationConfig) (initial_guess : Option (List ℝ)) :
    ℝ × List ℝ :=
  let obj_fn := fun x => evaluate_objective model x data
  match initial_guess with
  | some guess =>
    if config.cmaes.mini_cmaes_on_refinement then
      let cmaes_result := ext.cmaes obj_fn model.param_bounds (some guess)
      (obj_fn cmaes_result.2, cmaes_result.2)
    else
      (obj_fn guess, guess)
  | none =>
    let cmaes_result := ext.cmaes obj_fn model.param_bounds none
    (obj_fn cmaes_result.2, cmaes_result.2)

/-- Embedding of `calibrate_model` in `src/calibration/pipeline.rs`: global stage, then
optional L-BFGS-B refinement whose point is kept only on strict improvement;
a refinement failure keeps the incumbent and is not propagated. -/
def calibrate_model (ext : ExternalOptimizers) (model : SVIModelCalibrator)
    (data : List MarketDataRow) (config : OptimizationConfig)
    (initial_guess : Option (List ℝ)) : ℝ × List ℝ :=
  let bounds := model.param_bounds
  let obj_fn := fun x => evaluate_objective model x data
  let best := calibrate_model_stage1 ext model data config initial_guess
  if config.cmaes.lbfgsb_enabled then
    match ext.lbfgsb best.2 bounds obj_fn config.cmaes.lbfgsb_max_iterations
        config.tolerance with
    | .ok r => if r.1 < best.1 then r else best
    | .error _ => best
  else best

/-- Constant `f64::MAX`, the initial incumbent objective of the adaptive loop. -/
def f64MAX : ℝ := 2 ^ 1024 - 2 ^ 971

/-- The `for iter in 0..max_iterations` loop of `calibrate_model_adaptive`,
with the remaining iteration count explicit: run one calibration, keep the
strictly better incumbent, expand the bounds, and stop early when the
expansion reports no adjustment. -/
def adaptiveLoop (ext : ExternalOptimizers) (data : List MarketDataRow)
    (config : OptimizationConfig) (initial_guess : Option (List ℝ)) :
    ℕ → SVIModelCalibrator → ℝ → List ℝ → ℝ × List ℝ × SVIModelCalibrator
  | 0, model, best_obj, best_params => (best_obj, best_params, model)
  | n + 1, model, best_obj, best_params =>
    let r := calibrate_model ext model data config initial_guess
    let best := if r.1 < best_obj then r else (best_obj, best_params)
    let e := model.expand_bounds_if_needed r.2
      config.adaptive_bounds.proximity_threshold
      config.adaptive_bounds.expansion_factor
    if e.2 then adaptiveLoop ext data config initial_guess n e.1 best.1 best.2
    else (best.1, best.2, e.1)

/-- Embedding of `calibrate_model_adaptive` in `src/calibration/pipeline.rs`. -/
def calibrate_model_adaptive (ext : ExternalOptimizers)
    (model : SVIModelCalibrator) (data : List MarketDataRow)
    (config : OptimizationConfig) (initial_guess : Option (List ℝ)) :
    ℝ × List ℝ × List (ℝ × ℝ) :=
  if config.adaptive_bounds.enabled = false then
    let r := calibrate_model ext model data config initial_guess
    (r.1, r.2, model.param_bounds)
  else
    let r := adaptiveLoop ext data config initial_guess
      config.adaptive_bounds.max_iterations model f64MAX []
    (r.1, r.2.1, r.2.2.param_bounds)

/-- Embedding of `CalibrationParams` in `src/lib.rs` (the type-erased model-parameter bag
modelled as `Option SviModelParams`). -/
structure CalibrationParams where
  param_bounds : Option SVIParamBounds
  model_params : Option SviModelParams
  reg_lambda : Option ℝ

/-- Embedding of `CalibrationParams::default`. -/
def CalibrationParams.default : CalibrationParams :=
  ⟨none, some SviModelParams.default, none⟩

/-- Embedding of `calibrate_svi` in `src/lib.rs`: construct the calibrator (the only
fallible step), install the warm start as regularisation anchor with
`reg_lambda` defaulting to `1e-2`, then run the adaptive pipeline. -/
def calibrate_svi (ext : ExternalOptimizers) (data : List MarketDataRow)
    (config : OptimizationConfig) (calib_params : CalibrationParams)
    (initial_guess : Option (List ℝ)) :
    Option (ℝ × List ℝ × SVIParamBounds) :=
  match SVIModelCalibrator.new data calib_params.param_bounds
      calib_params.model_params with
  | none => none
  | some calibrator =>
    let calibrator :=
      match initial_guess with
      | some guess =>
        (calibrator.set_prev_solution guess).set_temporal_reg_lambda
          (calib_params.reg_lambda.getD 1e-2)
      | none => calibrator
    let r := calibrate_model_adaptive ext calibrator data config initial_guess
    some (r.1, r.2.1, SVIParamBounds.fromList r.2.2)

/-- Embedding of `evaluate_svi` in `src/lib.rs`: scores a fixed parameter set by building
a fresh calibrator (without anchor or regularisation) over the same data.
The `mp_clone` downcast of the source is the identity in this embedding. -/
def evaluate_svi (data : List MarketDataRow) (params : SVIParams)
    (calib_params : CalibrationParams) : Option ℝ :=
  match SVIModelCalibrator.new data calib_params.param_bounds
      calib_params.model_params with
  | none => none
  | some calibrator =>
    some (evaluate_objective calibrator
      [params.a, params.b, params.rho, params.m, params.sigma] data)

/-- Log-moneyness of one market row, as computed inside
`evaluate_objective`. -/
def kRow (row : MarketDataRow) : ℝ :=
  log_moneyness row.strike_price row.underlying_price

/-- Rows of the slice that contribute to the objective: matching expiry tag
and positive market implied vol (the model IV is always positive, see
`implied_vol_pos`). -/
def validRows (e : ℤ) (data : List MarketDataRow) : List MarketDataRow :=
  data.filter (fun row => row.expiration = e ∧ 0 < row.market_iv)

/-- Squared total-variance error of one row against a slice. -/
def rowSqErr (slice : SVISlice) (t : ℝ) (row : MarketDataRow) : ℝ :=
  let model_iv := slice.implied_vol (kRow row)
  let diff := model_iv * model_iv * t - row.market_iv * row.market_iv * t
  diff * diff

/-- Closed form of the accumulated weight sum of `evaluate_objective`. -/
def weightSum (p : SviModelParams) (e : ℤ) (data : List MarketDataRow) : ℝ :=
  ((validRows e data).map (fun row => pointWeight p row.vega (kRow row))).sum

/-- Closed form of the accumulated weighted squared-error sum of
`evaluate_objective`. -/
def weightedErrSum (p : SviModelParams) (e : ℤ) (slice : SVISlice) (t : ℝ)
    (data : List MarketDataRow) : ℝ :=
  ((validRows e data).map
    (fun row => pointWeight p row.vega (kRow row) * rowSqErr slice t row)).sum

/-- Closed form of the temporal-regularisation term added at the end of
`evaluate_objective`. -/
def anchorPenalty (c : SVIModelCalibrator) (x : List ℝ) : ℝ :=
  match c.prev_solution with
  | some prev =>
    if 0 < c.temporal_reg_lambda ∧ prev.length = x.length then
      (List.zipWith (fun v p => (v - p) ^ 2) x prev).sum * c.temporal_reg_lambda
    else 0
  | none => 0

/-- Action of `expand_bounds_if_needed` on a single coordinate. -/
def expandOne (pt f : ℝ) (b : ℝ × ℝ) (p : ℝ) : ℝ × ℝ :=
  let range := b.2 - b.1
  ((if p ≤ b.1 + range * pt then b.1 - range * f else b.1),
   (if b.2 - range * pt ≤ p then b.2 + range * f else b.2))

/-- Whether one coordinate lies within `range * pt` of either edge of its
interval (the condition under which `expand_bounds_if_needed` fires). -/
def nearEdge (pt : ℝ) (b : ℝ × ℝ) (p : ℝ) : Bool :=
  let range := b.2 - b.1
  if p ≤ b.1 + range * pt ∨ b.2 - range * pt ≤ p then true else false

/-- Incumbent update of the adaptive loop: keep the strictly better pair. -/
def bestUpd (best r : ℝ × List ℝ) : ℝ × List ℝ :=
  if r.1 < best.1 then r else best

/-- Calibrator state after one adaptive iteration (calibrate, then expand
the bounds at the returned point). -/
def advanceModel (ext : ExternalOptimizers) (data : List MarketDataRow)
    (config : OptimizationConfig) (guess : Option (List ℝ))
    (m : SVIModelCalibrator) : SVIModelCalibrator :=
  (m.expand_bounds_if_needed (calibrate_model ext m data config guess).2
    config.adaptive_bounds.proximity_threshold
    config.adaptive_bounds.expansion_factor).1

/-- Adjustment flag reported by one adaptive iteration. -/
def advanceFlag (ext : ExternalOptimizers) (data : List MarketDataRow)
    (config : OptimizationConfig) (guess : Option (List ℝ))
    (m : SVIModelCalibrator) : Bool :=
  (m.expand_bounds_if_needed (calibrate_model ext m data config guess).2
    config.adaptive_bounds.proximity_threshold
    config.adaptive_bounds.expansion_factor).2

/-- Calibrator state before adaptive iteration `n`. -/
def modelIter (ext : ExternalOptimizers) (data : List MarketDataRow)
    (config : OptimizationConfig) (guess : Option (List ℝ))
    (m : SVIModelCalibrator) (n : ℕ) : SVIModelCalibrator :=
  (advanceModel ext data config guess)^[n] m

/-- Objective/parameter pair produced by adaptive iteration `n`. -/
def iterPair (ext : ExternalOptimizers) (data : List MarketDataRow)
    (config : OptimizationConfig) (guess : Option (List ℝ))
    (m : SVIModelCalibrator) (n : ℕ) : ℝ × List ℝ :=
  calibrate_model ext (modelIter ext data config guess m n) data config guess

/-- Adjustment flag of adaptive iteration `n`. -/
def iterFlag (ext : ExternalOptimizers) (data : List MarketDataRow)
    (config : OptimizationConfig) (guess : Option (List ℝ))
    (m : SVIModelCalibrator) (n : ℕ) : Bool :=
  advanceFlag ext data config guess (modelIter ext data config guess m n)

/-- Market row used by the concrete counterexamples and witnesses: a call
at strike 1 on underlying 1, one year to expiry, market IV 1, vega 1,
expiry tag 0. -/
def rowUnit : MarketDataRow := ⟨"call", 1, 1, 1, 1, 1, 0⟩

/-- Custom bounds whose first interval is inverted (`0.5 > -0.5`). -/
def invertedBounds : SVIParamBounds :=
  ⟨(0.5, -0.5), (0.01, 2), (-0.99, -0.01), (-1, 1), (0.01, 2)⟩

/-- Calibration parameters carrying the inverted bounds. -/
def cpInverted : CalibrationParams :=
  ⟨some invertedBounds, some SviModelParams.default, none⟩

/-- Calibrator produced by `SVIModelCalibrator::new` on `[rowUnit]` with
default bounds and model parameters. -/
def cUnit : SVIModelCalibrator :=
  ⟨(0, 1), [(-0.5, 0.5), (0.01, 2), (-0.99, -0.01), (-1, 1), (0.01, 2)],
   SviModelParams.default, none, 0⟩

/-- Optimization configuration with adaptive bounds enabled and a zero
iteration cap. -/
def configAdaptiveZero : OptimizationConfig :=
  { OptimizationConfig.default with adaptive_bounds := ⟨true, 0, 0.1, 0.25⟩ }

/-- Market row with a tiny vega (`1e-12`), otherwise as `rowUnit`. -/
def rowTinyVega : MarketDataRow := ⟨"call", 1, 1, 1, 1, 1e-12, 0⟩

/-- Optimization configuration with one adaptive iteration, L-BFGS-B and
mini CMA-ES disabled (so a supplied warm start is scored directly). -/
def configAdaptiveOne : OptimizationConfig :=
  { OptimizationConfig.default with
    adaptive_bounds := ⟨true, 1, 0.1, 0.25⟩,
    cmaes := { CmaEsConfig.default with
      lbfgsb_enabled := false, mini_cmaes_on_refinement := false } }

/-- Warm start lying strictly inside the default bounds, away from every
proximity threshold. -/
def guessInterior : List ℝ := [0, 1, -(1/2), 0, 1]

/-- Warm start used by the C8 instances. -/
def guessC8 : List ℝ := [0, 1, 0, 0, 1]

/-- External optimizers whose CMA-ES returns the fixed point
`[0, 2, 0, 0, 1]` (any contract-respecting optimizer may do so) and whose
L-BFGS-B always fails. -/
def extC8 : ExternalOptimizers :=
  ⟨fun _ _ _ => (0, [0, 2, 0, 0, 1]), fun _ _ _ _ _ => .error .numericalError⟩

/-- Default configuration with the L-BFGS-B refinement switched off (mini
CMA-ES on refinement stays on, adaptive bounds stay off). -/
def configC8 : OptimizationConfig :=
  { OptimizationConfig.default with
    cmaes := { CmaEsConfig.default with lbfgsb_enabled := false } }

/-- Calibrator equal to `cUnit` with the warm start `guessC8` installed as
anchor and regularisation strength `1e-2`. -/
def cAnchored : SVIModelCalibrator :=
  ⟨(0, 1), [(-0.5, 0.5), (0.01, 2), (-0.99, -0.01), (-1, 1), (0.01, 2)],
   SviModelParams.default, some [0, 1, 0, 0, 1], 1e-2⟩

/-- Inert instantiation of the external optimizers, used to exercise the
pipeline on concrete inputs: CMA-ES returns the zero vector, L-BFGS-B
always fails (so the pipeline must keep its incumbent). -/
def extTrivial : ExternalOptimizers :=
  ⟨fun _ _ _ => (0, [0, 0, 0, 0, 0]), fun _ _ _ _ _ => .error .numericalError⟩

end

/-! ## Shared lemmas about the SVI slice -/

section SliceLemmas

/-- Core inequality behind the wing constraint: the SVI kernel
`rho*x + sqrt(x^2 + sigma^2)` is bounded below by `sigma*sqrt(1-rho^2)`. -/
lemma svi_kernel_lb (rho sigma x : ℝ) (h1 : -1 < rho) (h2 : rho < 1) :
    sigma * Real.sqrt (1 - rho * rho) ≤
      rho * x + Real.sqrt (x * x + sigma * sigma) := by
  set c := Real.sqrt (1 - rho * rho) with hc_def
  have hc : 0 ≤ c := Real.sqrt_nonneg _
  have hc2 : c * c = 1 - rho * rho := Real.mul_self_sqrt (by nlinarith)
  by_cases hneg : sigma * c - rho * x ≤ 0
  · have hsq : 0 ≤ Real.sqrt (x * x + sigma * sigma) := Real.sqrt_nonneg _
    linarith
  · push_neg at hneg
    have hle : sigma * c - rho * x ≤ Real.sqrt (x * x + sigma * sigma) := by
      rw [show x * x + sigma * sigma = (x ^ 2 + sigma ^ 2) by ring]
      refine (Real.le_sqrt hneg.le (by positivity)).mpr ?_
      nlinarith [sq_nonneg (c * x + sigma * rho), hc2]
    linarith

/-- For admissible parameters the SVI total variance is nonnegative at
every log-moneyness. -/
lemma total_variance_nonneg (t a b rho m sigma : ℝ)
    (h : validate_svi_params t a b rho m sigma) (k : ℝ) :
    0 ≤ (SVISlice.new ⟨t, a, b, rho, m, sigma⟩).total_variance_at_k k := by
  obtain ⟨ht, hb, ⟨hr1, hr2⟩, hs, hwing, -⟩ := h
  have hk := svi_kernel_lb rho sigma (k - m) hr1 hr2
  show 0 ≤ a + b * (rho * (k - m) +
    Real.sqrt ((k - m) * (k - m) + sigma * sigma))
  nlinarith [hk, hwing, hb.le,
    mul_le_mul_of_nonneg_left hk hb.le]

/-- The implied vol returned by `SVISlice::implied_vol` is always positive
once the slice time is positive. -/
lemma implied_vol_pos (s : SVISlice) (ht : 0 < s.params.t) (k : ℝ) :
    0 < s.implied_vol k := by
  unfold SVISlice.implied_vol
  by_cases h : s.total_variance_at_k k ≤ 0
  · rw [if_pos h]; norm_num
  · push_neg at h
    rw [if_neg (not_le.mpr h)]
    exact Real.sqrt_pos.mpr (div_pos h ht)

end SliceLemmas

/-! ## Claim C3: implied vol and the variance floor -/

/-- Claim C3, counterexample.  The spec says
`implied_vol(k) = sqrt(max(w(k), 1e-12)/t)`.  For the admissible parameter
set `(t,a,b,rho,m,sigma) = (4, -1/5, 1, 0, 0, 1/5)` the total variance at
`k = 0` is exactly `0`, where the code returns the constant `1e-6` while the
spec formula gives `sqrt(1e-12/4) = 5e-7`. -/
theorem C3_counterexample :
    validate_svi_params 4 (-(1/5)) 1 0 0 (1/5) ∧
    (SVISlice.new ⟨4, -(1/5), 1, 0, 0, 1/5⟩).implied_vol 0 ≠
      Real.sqrt
        (max ((SVISlice.new ⟨4, -(1/5), 1, 0, 0, 1/5⟩).total_variance_at_k 0)
          1e-12 / 4) := by
  have hw : (SVISlice.new ⟨4, -(1/5), 1, 0, 0, 1/5⟩).total_variance_at_k 0 = 0 := by
    show (-(1/5) : ℝ) + 1 * (0 * ((0:ℝ) - 0) +
      Real.sqrt (((0:ℝ) - 0) * ((0:ℝ) - 0) + (1/5) * (1/5))) = 0
    rw [show ((0:ℝ) - 0) * ((0:ℝ) - 0) + (1/5) * (1/5) = (1/5) * (1/5) by ring,
      Real.sqrt_mul_self (by norm_num)]
    ring
  refine ⟨⟨by norm_num, by norm_num, ⟨by norm_num, by norm_num⟩, by norm_num, ?_, rfl⟩, ?_⟩
  · rw [show (1 - (0:ℝ) * 0) = 1 by norm_num, Real.sqrt_one]
    norm_num
  · have hiv : (SVISlice.new ⟨4, -(1/5), 1, 0, 0, 1/5⟩).implied_vol 0 = 1e-6 := by
      unfold SVISlice.implied_vol
      rw [hw, if_pos le_rfl]
    have hrhs :
        Real.sqrt
          (max ((SVISlice.new ⟨4, -(1/5), 1, 0, 0, 1/5⟩).total_variance_at_k 0)
            1e-12 / 4) = 5e-7 := by
      rw [hw, max_eq_right (by norm_num),
        show ((1e-12 : ℝ) / 4) = (5e-7) ^ 2 by norm_num,
        Real.sqrt_sq (by norm_num)]
    rw [hiv, hrhs]
    norm_num

/-- Claim C3, amended.  For every admissible SVI parameter set and every
log-moneyness `k`, the total variance `w(k)` is nonnegative and the implied
vol is positive; it equals `sqrt(w(k)/t)` whenever `w(k) > 0`, and whenever
the guard binds (`w(k) ≤ 0`, hence `w(k) = 0`) the code returns the constant
`1e-6`, which does not depend on `t`. -/
theorem C3_implied_vol (t a b rho m sigma : ℝ)
    (h : validate_svi_params t a b rho m sigma) (k : ℝ) :
    0 ≤ (SVISlice.new ⟨t, a, b, rho, m, sigma⟩).total_variance_at_k k ∧
    0 < (SVISlice.new ⟨t, a, b, rho, m, sigma⟩).implied_vol k ∧
    (0 < (SVISlice.new ⟨t, a, b, rho, m, sigma⟩).total_variance_at_k k →
      (SVISlice.new ⟨t, a, b, rho, m, sigma⟩).implied_vol k =
        Real.sqrt
          ((SVISlice.new ⟨t, a, b, rho, m, sigma⟩).total_variance_at_k k / t)) ∧
    ((SVISlice.new ⟨t, a, b, rho, m, sigma⟩).total_variance_at_k k ≤ 0 →
      (SVISlice.new ⟨t, a, b, rho, m, sigma⟩).implied_vol k = 1e-6) := by
  have ht : 0 < t := h.1
  refine ⟨total_variance_nonneg t a b rho m sigma h k,
    implied_vol_pos _ ht k, ?_, ?_⟩
  · intro hw
    unfold SVISlice.implied_vol
    rw [if_neg (not_le.mpr hw)]
    rfl
  · intro hw
    unfold SVISlice.implied_vol
    rw [if_pos hw]

/-- Witness for C3 at the admissible parameter set
`(t,a,b,rho,m,sigma) = (1, 0, 1, 0, 0, 1)` and `k = 0`. -/
theorem C3_witness :
    validate_svi_params 1 0 1 0 0 1 ∧
    (0 ≤ (SVISlice.new ⟨1, 0, 1, 0, 0, 1⟩).total_variance_at_k 0 ∧
      0 < (SVISlice.new ⟨1, 0, 1, 0, 0, 1⟩).implied_vol 0 ∧
      (0 < (SVISlice.new ⟨1, 0, 1, 0, 0, 1⟩).total_variance_at_k 0 →
        (SVISlice.new ⟨1, 0, 1, 0, 0, 1⟩).implied_vol 0 =
          Real.sqrt
            ((SVISlice.new ⟨1, 0, 1, 0, 0, 1⟩).total_variance_at_k 0 / 1)) ∧
      ((SVISlice.new ⟨1, 0, 1, 0, 0, 1⟩).total_variance_at_k 0 ≤ 0 →
        (SVISlice.new ⟨1, 0, 1, 0, 0, 1⟩).implied_vol 0 = 1e-6)) := by
  have hvalid : validate_svi_params 1 0 1 0 0 1 := by
    refine ⟨by norm_num, by norm_num, ⟨by norm_num, by norm_num⟩, by norm_num, ?_, rfl⟩
    rw [show (1 - (0:ℝ) * 0) = 1 by norm_num, Real.sqrt_one]
    norm_num
  exact ⟨hvalid, C3_implied_vol 1 0 1 0 0 1 hvalid 0⟩

/-! ## Closed form of the objective accumulator -/

section ObjectiveFold

/-- Closed form of the observation loop of `evaluate_objective`: when the
model IV is everywhere positive (which holds as soon as the slice time is
positive), the loop accumulates exactly the weighted error sum, weight sum
and count over the rows with matching tag and positive market IV. -/
lemma foldl_objStep_eq (p : SviModelParams) (e : ℤ) (t : ℝ) (slice : SVISlice)
    (hiv : ∀ k, 0 < slice.implied_vol k) :
    ∀ (data : List MarketDataRow) (acc : ObjAcc),
    data.foldl (objStep p e t slice) acc =
      ⟨acc.weighted_error_sum + weightedErrSum p e slice t data,
       acc.weight_sum + weightSum p e data,
       acc.valid_points + (validRows e data).length⟩ := by
  intro data
  induction data with
  | nil =>
    intro acc
    simp [weightedErrSum, weightSum, validRows]
  | cons row rest ih =>
    intro acc
    by_cases h1 : row.expiration = e
    · by_cases h2 : 0 < row.market_iv
      · have hne : ¬ (slice.implied_vol
            (log_moneyness row.strike_price row.underlying_price) ≤ 0 ∨
            row.market_iv ≤ 0) :=
          not_or.mpr ⟨not_le.mpr (hiv _), not_le.mpr h2⟩
        have hstep : objStep p e t slice acc row =
            ⟨acc.weighted_error_sum +
               pointWeight p row.vega (kRow row) * rowSqErr slice t row,
             acc.weight_sum + pointWeight p row.vega (kRow row),
             acc.valid_points + 1⟩ := by
          unfold objStep
          rw [if_neg (not_not_intro h1), if_neg hne]
          rfl
        have hfilter : validRows e (row :: rest) = row :: validRows e rest := by
          simp [validRows, List.filter_cons, h1, h2]
        rw [List.foldl_cons, hstep, ih]
        simp only [weightedErrSum, weightSum, hfilter, List.map_cons,
          List.sum_cons, List.length_cons, ObjAcc.mk.injEq]
        refine ⟨by ring, by ring, by omega⟩
      · have hstep : objStep p e t slice acc row = acc := by
          unfold objStep
          rw [if_neg (not_not_intro h1), if_pos (Or.inr (not_lt.mp h2))]
        have hfilter : validRows e (row :: rest) = validRows e rest := by
          simp [validRows, List.filter_cons, h2]
        rw [List.foldl_cons, hstep, ih,
          show weightedErrSum p e slice t (row :: rest) =
            weightedErrSum p e slice t rest by
              simp [weightedErrSum, hfilter],
          show weightSum p e (row :: rest) = weightSum p e rest by
              simp [weightSum, hfilter],
          hfilter]
    · have hstep : objStep p e t slice acc row = acc := by
        unfold objStep
        rw [if_pos h1]
      have hfilter : validRows e (row :: rest) = validRows e rest := by
        simp [validRows, List.filter_cons, h1]
      rw [List.foldl_cons, hstep, ih,
        show weightedErrSum p e slice t (row :: rest) =
          weightedErrSum p e slice t rest by
            simp [weightedErrSum, hfilter],
        show weightSum p e (row :: rest) = weightSum p e rest by
            simp [weightSum, hfilter],
        hfilter]

end ObjectiveFold

/-! ## Claim C1: the per-point weight -/

/-- Claim C1, counterexample.  The spec says the vega part of the weight is
`max(vega, 1)` when vega weighting is enabled; the code uses the raw vega
whenever it is positive.  With the default model parameters (vega weighting
enabled, ATM boost 25) a vega of `1/2` at `k = 0` yields the code weight
`1/2`, while the spec formula gives `max(1/2, 1) = 1`. -/
theorem C1_counterexample :
    pointWeight SviModelParams.default (1/2) 0 ≠
      (if SviModelParams.default.use_vega_weighting then max (1/2 : ℝ) 1 else 1) *
        Real.exp (-SviModelParams.default.atm_boost_factor * |(0 : ℝ)|) := by
  have h1 : pointWeight SviModelParams.default (1/2) 0 = 1/2 := by
    unfold pointWeight SviModelParams.default
    norm_num [Real.exp_zero]
  have h2 :
      (if SviModelParams.default.use_vega_weighting then max (1/2 : ℝ) 1 else 1) *
        Real.exp (-SviModelParams.default.atm_boost_factor * |(0 : ℝ)|) = 1 := by
    unfold SviModelParams.default
    norm_num [Real.exp_zero]
  rw [h1, h2]
  norm_num

/-- Claim C1, amended.  For every observation with positive market implied
vol and matching expiry tag, the per-point weight used by
`evaluate_objective` is `v_weight * exp(-beta*|k|)` where `v_weight` equals
the raw vega when vega weighting is enabled and the vega is positive, and
`1` otherwise (in particular it is not floored at 1), with `beta` the
configurable ATM boost defaulting to `25`; the loop's accumulated weight sum
and valid-point count range exactly over those observations. -/
theorem C1_point_weight (p : SviModelParams) (e : ℤ) (t : ℝ) (slice : SVISlice)
    (hts : 0 < slice.params.t) (data : List MarketDataRow) :
    (∀ vega k, pointWeight p vega k =
       (if p.use_vega_weighting then (if 0 < vega then vega else 1) else 1) *
         Real.exp (-p.atm_boost_factor * |k|)) ∧
    SviModelParams.default.atm_boost_factor = 25 ∧
    SviModelParams.default.use_vega_weighting = true ∧
    (data.foldl (objStep p e t slice) ⟨0, 0, 0⟩).weight_sum =
      weightSum p e data ∧
    (data.foldl (objStep p e t slice) ⟨0, 0, 0⟩).valid_points =
      (validRows e data).length := by
  have hiv : ∀ k, 0 < slice.implied_vol k := implied_vol_pos slice hts
  have hf := foldl_objStep_eq p e t slice hiv data ⟨0, 0, 0⟩
  refine ⟨fun vega k => rfl, rfl, rfl, ?_, ?_⟩ <;> rw [hf]
  · exact zero_add _
  · exact Nat.zero_add _

/-- Witness for C1 on the slice with parameters `(1, 0, 1, 0, 0, 1)` and a
single call quote with vega `1/2`. -/
theorem C1_witness :
    0 < (SVISlice.new ⟨1, 0, 1, 0, 0, 1⟩).params.t ∧
    ((∀ vega k, pointWeight SviModelParams.default vega k =
       (if SviModelParams.default.use_vega_weighting then
          (if 0 < vega then vega else 1) else 1) *
         Real.exp (-SviModelParams.default.atm_boost_factor * |k|)) ∧
     SviModelParams.default.atm_boost_factor = 25 ∧
     SviModelParams.default.use_vega_weighting = true ∧
     (([⟨"call", 1, 1, 1, 1, 1/2, 0⟩] : List MarketDataRow).foldl
        (objStep SviModelParams.default 0 1 (SVISlice.new ⟨1, 0, 1, 0, 0, 1⟩))
        ⟨0, 0, 0⟩).weight_sum =
       weightSum SviModelParams.default 0 [⟨"call", 1, 1, 1, 1, 1/2, 0⟩] ∧
     (([⟨"call", 1, 1, 1, 1, 1/2, 0⟩] : List MarketDataRow).foldl
        (objStep SviModelParams.default 0 1 (SVISlice.new ⟨1, 0, 1, 0, 0, 1⟩))
        ⟨0, 0, 0⟩).valid_points =
       (validRows 0 [⟨"call", 1, 1, 1, 1, 1/2, 0⟩]).length) :=
  ⟨one_pos,
   C1_point_weight SviModelParams.default 0 1 (SVISlice.new ⟨1, 0, 1, 0, 0, 1⟩)
     one_pos [⟨"call", 1, 1, 1, 1, 1/2, 0⟩]⟩

/-! ## Claim C6: bound expansion -/

/-- Claim C6, counterexample.  The claim says the call returns `true` iff
some edge moved.  With `proximity_threshold = 0` and `expansion_factor = 0`,
a parameter sitting on the lower edge of `[0, 1]` makes the adjustment
branch fire (return value `true`) while the bounds are unchanged — no edge
moved. -/
theorem C6_counterexample :
    (expandBoundsAux 0 0 [((0:ℝ), 1)] [(0:ℝ)]).1 = [((0:ℝ), 1)] ∧
    (expandBoundsAux 0 0 [((0:ℝ), 1)] [(0:ℝ)]).2 = true := by
  constructor <;> norm_num [expandBoundsAux]

/-- Claim C6, amended.  With nonnegative `p` (proximity threshold) and `f`
(expansion factor), `expand_bounds_if_needed` acts coordinatewise: the lower
edge becomes `l - f*(u-l)` exactly when `x_i ≤ l + p*(u-l)` and the upper
edge becomes `u + f*(u-l)` exactly when `x_i ≥ u - p*(u-l)` (both against
the pre-call range); for intervals with `l ≤ u` the lower bound never
increases, the upper bound never decreases and the width is nondecreasing;
the call returns `true` iff some coordinate lies within `p*(u-l)` of an
edge, which coincides with "some edge moved" whenever `f > 0` and the
interval widths are positive. -/
theorem C6_expand_bounds (pt f : ℝ) (hpt : 0 ≤ pt) (hf : 0 ≤ f) :
    (∀ (bounds : List (ℝ × ℝ)) (x : List ℝ), x.length = bounds.length →
      expandBoundsAux pt f bounds x =
        (List.zipWith (expandOne pt f) bounds x,
         (List.zipWith (fun b p => nearEdge pt b p) bounds x).any
           (fun b => b))) ∧
    (∀ l u p, l ≤ u →
      (expandOne pt f (l, u) p).1 =
        (if p ≤ l + (u - l) * pt then l - (u - l) * f else l) ∧
      (expandOne pt f (l, u) p).2 =
        (if u - (u - l) * pt ≤ p then u + (u - l) * f else u) ∧
      (expandOne pt f (l, u) p).1 ≤ l ∧
      u ≤ (expandOne pt f (l, u) p).2 ∧
      u - l ≤ (expandOne pt f (l, u) p).2 - (expandOne pt f (l, u) p).1) ∧
    (∀ l u p, l < u → 0 < f →
      (nearEdge pt (l, u) p = true ↔ expandOne pt f (l, u) p ≠ (l, u))) := by
  have hone : ∀ l u p, expandOne pt f (l, u) p =
      (if p ≤ l + (u - l) * pt then l - (u - l) * f else l,
       if u - (u - l) * pt ≤ p then u + (u - l) * f else u) := by
    intro l u p
    rfl
  refine ⟨?_, ?_, ?_⟩
  · intro bounds
    induction bounds with
    | nil =>
      intro x hx
      rw [List.length_nil, List.length_eq_zero] at hx
      subst hx
      simp [expandBoundsAux]
    | cons b bs ih =>
      intro x hx
      cases x with
      | nil => simp at hx
      | cons p ps =>
        obtain ⟨l, u⟩ := b
        have hx' : ps.length = bs.length := by simpa using hx
        have hstep : expandBoundsAux pt f ((l, u) :: bs) (p :: ps) =
            ((if p ≤ l + (u - l) * pt then l - (u - l) * f else l,
              if u - (u - l) * pt ≤ p then u + (u - l) * f else u) ::
                (expandBoundsAux pt f bs ps).1,
             ((if p ≤ l + (u - l) * pt then true else false) ||
               (if u - (u - l) * pt ≤ p then true else false)) ||
                 (expandBoundsAux pt f bs ps).2) := rfl
        rw [hstep, ih ps hx']
        refine Prod.ext ?_ ?_
        · show _ :: List.zipWith (expandOne pt f) bs ps =
            List.zipWith (expandOne pt f) ((l, u) :: bs) (p :: ps)
          rw [List.zipWith_cons_cons, hone]
        · show (((if p ≤ l + (u - l) * pt then true else false) ||
              (if u - (u - l) * pt ≤ p then true else false)) ||
                (List.zipWith (fun b p => nearEdge pt b p) bs ps).any
                  (fun b => b)) = _
          dsimp only
          rw [List.zipWith_cons_cons, List.any_cons]
          by_cases hl : p ≤ l + (u - l) * pt <;>
            by_cases hu : u - (u - l) * pt ≤ p <;>
              simp [nearEdge, hl, hu]
  · intro l u p hlu
    have hr : 0 ≤ (u - l) * f := mul_nonneg (by linarith) hf
    rw [hone]
    refine ⟨rfl, rfl, ?_, ?_, ?_⟩ <;> dsimp only <;> split_ifs <;> linarith
  · intro l u p hlu hf0
    have hprod : 0 < (u - l) * f := mul_pos (by linarith) hf0
    have hcond : nearEdge pt (l, u) p = true ↔
        (p ≤ l + (u - l) * pt ∨ u - (u - l) * pt ≤ p) := by
      simp [nearEdge]
    constructor
    · intro hne heq
      rw [hone] at heq
      rcases hcond.mp hne with hl | hu
      · have h1 : l - (u - l) * f = l := by
          have := congrArg Prod.fst heq
          simpa [hl] using this
        linarith
      · have h2 : u + (u - l) * f = u := by
          have := congrArg Prod.snd heq
          simpa [hu] using this
        linarith
    · intro hne
      by_contra hnb
      have hfalse : nearEdge pt (l, u) p = false := by
        simpa using hnb
      have hnc : ¬ (p ≤ l + (u - l) * pt ∨ u - (u - l) * pt ≤ p) := by
        intro hc
        rw [hcond.mpr hc] at hfalse
        exact Bool.noConfusion hfalse
      push_neg at hnc
      apply hne
      rw [hone, if_neg (not_le.mpr hnc.1), if_neg (not_le.mpr hnc.2)]

/-- Witness for C6: with `p = 1/10`, `f = 1/4`, a parameter at the center
of `[0, 1]` triggers no expansion and the flag is `false`. -/
theorem C6_witness :
    (0:ℝ) ≤ 1/10 ∧ (0:ℝ) ≤ 1/4 ∧
    expandBoundsAux (1/10) (1/4) [((0:ℝ), 1)] [(1/2 : ℝ)] =
      ([((0:ℝ), 1)], false) := by
  have h := (C6_expand_bounds (1/10) (1/4) (by norm_num) (by norm_num)).1
    [((0:ℝ), 1)] [(1/2 : ℝ)] (by simp)
  refine ⟨by norm_num, by norm_num, ?_⟩
  rw [h]
  norm_num [expandOne, nearEdge]

/-! ## Claim C2: when calibrate_svi errors -/

section ErrorCondition

/-- Auxiliary: a nonempty list all of whose elements equal `e` dedups to
`[e]`. -/
lemma all_eq_dedup (e : ℤ) : ∀ (l : List ℤ), l ≠ [] → (∀ x ∈ l, x = e) →
    l.dedup = [e]
  | [] => by intro h _; exact absurd rfl h
  | a :: l => by
    intro _ hall
    have ha : a = e := hall a (List.mem_cons_self a l)
    subst ha
    cases l with
    | nil => simp
    | cons b l' =>
      have hl : (b :: l').dedup = [a] :=
        all_eq_dedup a (b :: l') (by simp)
          (fun x hx => hall x (List.mem_cons_of_mem _ hx))
      have hb : b = a := hall b (by simp)
      have hmem : a ∈ b :: l' := by simp [hb.symm]
      rw [List.dedup_cons_of_mem hmem, hl]

/-- Characterisation of a single distinct tag via `dedup`. -/
lemma dedup_length_one_iff (l : List ℤ) :
    l.dedup.length = 1 ↔ l ≠ [] ∧ ∃ e, ∀ x ∈ l, x = e := by
  constructor
  · intro h
    obtain ⟨a, ha⟩ := List.length_eq_one.mp h
    refine ⟨?_, a, ?_⟩
    · intro hnil
      subst hnil
      simp at ha
    · intro x hx
      have hmem := List.mem_dedup.mpr hx
      rw [ha] at hmem
      simpa using hmem
  · rintro ⟨hne, e, he⟩
    rw [all_eq_dedup e l hne he]
    rfl

/-- Constructor success is exactly the single-distinct-tag condition. -/
lemma new_isSome_iff (data : List MarketDataRow) (bo : Option SVIParamBounds)
    (mp : Option SviModelParams) :
    (SVIModelCalibrator.new data bo mp).isSome = true ↔
      (data.map (·.expiration)).dedup.length = 1 := by
  cases data with
  | nil => simp [SVIModelCalibrator.new]
  | cons r rest =>
    unfold SVIModelCalibrator.new
    dsimp only
    by_cases h : (((r :: rest).map (·.expiration)).dedup.length = 1)
    · rw [if_pos h]
      simpa using h
    · rw [if_neg h]
      simpa using h

end ErrorCondition

/-- Claim C2, counterexample.  The claim says an inverted bound interval
makes `calibrate_svi` return an error; the code never inspects the bound
intervals, so a single-expiry slice with inverted custom bounds calibrates
without error. -/
theorem C2_counterexample :
    invertedBounds.a.2 < invertedBounds.a.1 ∧
    (calibrate_svi extTrivial [rowUnit] OptimizationConfig.default cpInverted
      none).isSome = true := by
  refine ⟨by norm_num [invertedBounds], ?_⟩
  have hnew : (SVIModelCalibrator.new [rowUnit] cpInverted.param_bounds
      cpInverted.model_params).isSome = true := by
    rw [new_isSome_iff]
    simp [rowUnit]
  obtain ⟨c, hc⟩ := Option.isSome_iff_exists.mp hnew
  unfold calibrate_svi
  rw [hc]
  rfl

/-- Claim C2, amended.  For every choice of external optimizers (hence
regardless of optimizer convergence), configuration, bounds, model
parameters and warm start, `calibrate_svi` returns an error exactly when
the slice is empty or contains more than one distinct expiry tag; inverted
bound intervals and the remaining market-data values are not validated. -/
theorem C2_error_condition (ext : ExternalOptimizers) (data : List MarketDataRow)
    (config : OptimizationConfig) (calib_params : CalibrationParams)
    (guess : Option (List ℝ)) :
    (calibrate_svi ext data config calib_params guess).isSome = true ↔
      data ≠ [] ∧ ∃ e, ∀ row ∈ data, row.expiration = e := by
  have h0 : (calibrate_svi ext data config calib_params guess).isSome =
      (SVIModelCalibrator.new data calib_params.param_bounds
        calib_params.model_params).isSome := by
    unfold calibrate_svi
    cases hnew : SVIModelCalibrator.new data calib_params.param_bounds
        calib_params.model_params with
    | none => rfl
    | some c => rfl
  rw [h0, new_isSome_iff, dedup_length_one_iff]
  simp only [ne_eq, List.map_eq_nil_iff]
  constructor
  · rintro ⟨h1, e, he⟩
    exact ⟨h1, e, fun row hrow => he _ (List.mem_map_of_mem _ hrow)⟩
  · rintro ⟨h1, e, he⟩
    refine ⟨h1, e, ?_⟩
    intro x hx
    obtain ⟨row, hrow, rfl⟩ := List.mem_map.mp hx
    exact he row hrow

/-! ## Claim C9: adaptive loop with a zero iteration cap -/

section AdaptiveZero

/-- Setting the previous solution leaves the stored bounds unchanged. -/
lemma set_prev_param_bounds (c : SVIModelCalibrator) (g : List ℝ) :
    (c.set_prev_solution g).param_bounds = c.param_bounds := by
  unfold SVIModelCalibrator.set_prev_solution
  split_ifs <;> rfl

/-- Setting the regularisation strength leaves the bounds unchanged. -/
lemma set_lambda_param_bounds (c : SVIModelCalibrator) (lam : ℝ) :
    (c.set_temporal_reg_lambda lam).param_bounds = c.param_bounds := rfl

/-- Bounds list stored by a successfully constructed calibrator. -/
lemma new_param_bounds (data : List MarketDataRow) (bo : Option SVIParamBounds)
    (mp : Option SviModelParams) (c : SVIModelCalibrator)
    (hc : SVIModelCalibrator.new data bo mp = some c) :
    c.param_bounds =
      [(bo.getD SVIParamBounds.default).a, (bo.getD SVIParamBounds.default).b,
       (bo.getD SVIParamBounds.default).rho, (bo.getD SVIParamBounds.default).m,
       (bo.getD SVIParamBounds.default).sigma] := by
  cases data with
  | nil => simp [SVIModelCalibrator.new] at hc
  | cons r rest =>
    unfold SVIModelCalibrator.new at hc
    split_ifs at hc
    simp only [Option.some.injEq] at hc
    rw [← hc]

/-- Round trip of the list conversion for the five-interval bounds. -/
lemma fromList_toList (b : SVIParamBounds) :
    SVIParamBounds.fromList [b.a, b.b, b.rho, b.m, b.sigma] = b := by
  cases b
  rfl

/-- With adaptive bounds enabled and a zero iteration cap the adaptive
pipeline runs nothing and returns the sentinel triple. -/
lemma adaptive_zero (ext : ExternalOptimizers) (data : List MarketDataRow)
    (config : OptimizationConfig) (guess : Option (List ℝ))
    (c : SVIModelCalibrator)
    (hen : config.adaptive_bounds.enabled = true)
    (hit : config.adaptive_bounds.max_iterations = 0) :
    calibrate_model_adaptive ext c data config guess =
      (f64MAX, [], c.param_bounds) := by
  unfold calibrate_model_adaptive
  rw [if_neg (by simp [hen]), hit]
  rfl

end AdaptiveZero

/-- Claim C9.  If adaptive bounds are enabled with `max_iterations = 0`,
`calibrate_model_adaptive` returns `(f64::MAX, [], input bounds)` without
running any optimization, and `calibrate_svi` consequently succeeds with
that triple and the unexpanded input bounds. -/
theorem C9_zero_iterations (ext : ExternalOptimizers) (data : List MarketDataRow)
    (config : OptimizationConfig) (cp : CalibrationParams)
    (guess : Option (List ℝ)) (c : SVIModelCalibrator)
    (hen : config.adaptive_bounds.enabled = true)
    (hit : config.adaptive_bounds.max_iterations = 0)
    (hc : SVIModelCalibrator.new data cp.param_bounds cp.model_params = some c) :
    calibrate_model_adaptive ext c data config guess =
      (f64MAX, [], c.param_bounds) ∧
    calibrate_svi ext data config cp guess =
      some (f64MAX, [], cp.param_bounds.getD SVIParamBounds.default) := by
  refine ⟨adaptive_zero ext data config guess c hen hit, ?_⟩
  unfold calibrate_svi
  rw [hc]
  cases guess with
  | none =>
    dsimp only
    rw [adaptive_zero ext data config none c hen hit]
    rw [new_param_bounds data cp.param_bounds cp.model_params c hc,
      fromList_toList]
  | some g =>
    dsimp only
    rw [adaptive_zero ext data config (some g)
      ((c.set_prev_solution g).set_temporal_reg_lambda (cp.reg_lambda.getD 1e-2))
      hen hit]
    rw [set_lambda_param_bounds, set_prev_param_bounds,
      new_param_bounds data cp.param_bounds cp.model_params c hc,
      fromList_toList]

/-- Constructing the calibrator on the singleton slice yields `cUnit`. -/
lemma new_rowUnit :
    SVIModelCalibrator.new [rowUnit] none (some SviModelParams.default) =
      some cUnit := by
  unfold SVIModelCalibrator.new
  dsimp only
  rw [if_pos (by simp [rowUnit])]
  unfold cUnit rowUnit
  norm_num [SVIParamBounds.default]

/-- Witness for C9 on the singleton slice with the zero-cap adaptive
configuration. -/
theorem C9_witness :
    configAdaptiveZero.adaptive_bounds.enabled = true ∧
    configAdaptiveZero.adaptive_bounds.max_iterations = 0 ∧
    SVIModelCalibrator.new [rowUnit] CalibrationParams.default.param_bounds
      CalibrationParams.default.model_params = some cUnit ∧
    (calibrate_model_adaptive extTrivial cUnit [rowUnit] configAdaptiveZero
        none = (f64MAX, [], cUnit.param_bounds) ∧
      calibrate_svi extTrivial [rowUnit] configAdaptiveZero
          CalibrationParams.default none =
        some (f64MAX, [],
          CalibrationParams.default.param_bounds.getD SVIParamBounds.default)) := by
  have hc : SVIModelCalibrator.new [rowUnit]
      CalibrationParams.default.param_bounds
      CalibrationParams.default.model_params = some cUnit := new_rowUnit
  exact ⟨rfl, rfl, hc,
    C9_zero_iterations extTrivial [rowUnit] configAdaptiveZero
      CalibrationParams.default none cUnit rfl rfl hc⟩

/-! ## Claim C7: L-BFGS-B refinement control flow -/

/-- Claim C7.  When L-BFGS-B refinement is enabled, a successful refinement
replaces the incumbent only on strict improvement, and a refinement failure
leaves the incumbent pair unchanged — the error is absorbed (the pipeline's
return type carries no error). -/
theorem C7_refinement (ext : ExternalOptimizers) (model : SVIModelCalibrator)
    (data : List MarketDataRow) (config : OptimizationConfig)
    (guess : Option (List ℝ))
    (hl : config.cmaes.lbfgsb_enabled = true) :
    (∀ r, ext.lbfgsb (calibrate_model_stage1 ext model data config guess).2
        model.param_bounds (fun x => evaluate_objective model x data)
        config.cmaes.lbfgsb_max_iterations config.tolerance = .ok r →
      calibrate_model ext model data config guess =
        (if r.1 < (calibrate_model_stage1 ext model data config guess).1
         then r else calibrate_model_stage1 ext model data config guess)) ∧
    (∀ e, ext.lbfgsb (calibrate_model_stage1 ext model data config guess).2
        model.param_bounds (fun x => evaluate_objective model x data)
        config.cmaes.lbfgsb_max_iterations config.tolerance = .error e →
      calibrate_model ext model data config guess =
        calibrate_model_stage1 ext model data config guess) := by
  constructor
  · intro r hr
    unfold calibrate_model
    rw [if_pos hl, hr]
  · intro e he
    unfold calibrate_model
    rw [if_pos hl, he]

/-- Witness for C7: with the always-failing refiner of `extTrivial`, the
default configuration (refinement enabled) keeps the stage-1 incumbent. -/
theorem C7_witness :
    OptimizationConfig.default.cmaes.lbfgsb_enabled = true ∧
    calibrate_model extTrivial cUnit [rowUnit] OptimizationConfig.default none =
      calibrate_model_stage1 extTrivial cUnit [rowUnit]
        OptimizationConfig.default none :=
  ⟨rfl,
   (C7_refinement extTrivial cUnit [rowUnit] OptimizationConfig.default none
     rfl).2 .numericalError rfl⟩

/-! ## Claim C4: the sentinel conditions of the objective -/

section ObjectiveClosedForm

/-- Validity of a parameter set with `rho = 0` and `m = 0` reduces to
elementary sign conditions. -/
lemma validate_rho_zero (t a b sigma : ℝ) (ht : 0 < t) (hb : 0 < b)
    (hs : 0 < sigma) (ha : 0 ≤ a + b * sigma) :
    validate_svi_params t a b 0 0 sigma := by
  refine ⟨ht, hb, ⟨by norm_num, by norm_num⟩, hs, ?_, rfl⟩
  rw [show (1 - (0:ℝ) * 0) = 1 by norm_num, Real.sqrt_one, mul_one]
  exact ha

/-- Constructor success for a parameter set with `rho = 0`, `m = 0`. -/
lemma new_rho_zero (t a b sigma : ℝ) (ht : 0 < t) (hb : 0 < b)
    (hs : 0 < sigma) (ha : 0 ≤ a + b * sigma) :
    SVIParams.new t a b 0 0 sigma = some ⟨t, a, b, 0, 0, sigma⟩ := by
  unfold SVIParams.new
  rw [if_pos (validate_rho_zero t a b sigma ht hb hs ha)]

/-- ATM total variance of a slice with `rho = 0`, `m = 0`. -/
lemma tv_rho_zero (t a b sigma : ℝ) (hs : 0 ≤ sigma) :
    (SVISlice.new ⟨t, a, b, 0, 0, sigma⟩).total_variance_at_k 0 =
      a + b * sigma := by
  show a + b * (0 * ((0:ℝ) - 0) +
    Real.sqrt (((0:ℝ) - 0) * ((0:ℝ) - 0) + sigma * sigma)) = _
  rw [show ((0:ℝ) - 0) * ((0:ℝ) - 0) + sigma * sigma = sigma * sigma by ring,
    Real.sqrt_mul_self hs]
  ring

/-- ATM implied vol of a slice with `rho = 0`, `m = 0` and positive ATM
variance. -/
lemma iv_rho_zero (t a b sigma : ℝ) (hs : 0 ≤ sigma)
    (hpos : 0 < a + b * sigma) :
    (SVISlice.new ⟨t, a, b, 0, 0, sigma⟩).implied_vol 0 =
      Real.sqrt ((a + b * sigma) / t) := by
  unfold SVISlice.implied_vol
  dsimp only
  rw [tv_rho_zero t a b sigma hs, if_neg (not_le.mpr hpos)]
  rfl

/-- Closed form of `evaluate_objective` on a five-component vector: the
sentinel on construction failure, the sentinel when no valid point exists or
the accumulated weight is at most `1e-12`, and the weighted RMSE plus the
anchor penalty otherwise. -/
lemma evaluate_objective_eq (c : SVIModelCalibrator) (a b rho m sigma : ℝ)
    (data : List MarketDataRow) :
    evaluate_objective c [a, b, rho, m, sigma] data =
      (match SVIParams.new c.expiration.2 a b rho m sigma with
       | none => (1e12 : ℝ)
       | some params =>
         if (validRows c.expiration.1 data).length = 0 ∨
             weightSum c.params c.expiration.1 data ≤ 1e-12 then 1e12
         else
           Real.sqrt (weightedErrSum c.params c.expiration.1
               (SVISlice.new params) c.expiration.2 data /
             weightSum c.params c.expiration.1 data) +
           anchorPenalty c [a, b, rho, m, sigma]) := by
  cases hp : SVIParams.new c.expiration.2 a b rho m sigma with
  | none =>
    unfold evaluate_objective
    dsimp only
    rw [hp]
  | some params =>
    have hval : validate_svi_params c.expiration.2 a b rho m sigma ∧
        params = ⟨c.expiration.2, a, b, rho, m, sigma⟩ := by
      unfold SVIParams.new at hp
      by_cases hv : validate_svi_params c.expiration.2 a b rho m sigma
      · rw [if_pos hv] at hp
        exact ⟨hv, ((Option.some.injEq _ _).mp hp).symm⟩
      · rw [if_neg hv] at hp
        exact absurd hp (by simp)
    have ht : 0 < params.t := by
      rw [hval.2]
      exact hval.1.1
    have hiv : ∀ k, 0 < (SVISlice.new params).implied_vol k :=
      implied_vol_pos _ ht
    have hfold := foldl_objStep_eq c.params c.expiration.1 c.expiration.2
      (SVISlice.new params) hiv data ⟨0, 0, 0⟩
    unfold evaluate_objective
    dsimp only
    rw [hp]
    dsimp only
    rw [hfold]
    dsimp only
    by_cases hcond : (validRows c.expiration.1 data).length = 0 ∨
        weightSum c.params c.expiration.1 data ≤ 1e-12
    · rw [if_pos (by simpa using hcond), if_pos hcond]
    · rw [if_neg (by simpa using hcond), if_neg hcond]
      simp only [zero_add]
      cases hprev : c.prev_solution with
      | none =>
        unfold anchorPenalty
        rw [hprev]
        dsimp only
        rw [add_zero]
      | some prev =>
        unfold anchorPenalty
        rw [hprev]
        dsimp only
        split_ifs with hcl
        · rfl
        · rw [add_zero]

end ObjectiveClosedForm

/-- Claim C4, amended.  `evaluate_objective` returns the sentinel `1e12`
exactly along the code's three guard conditions: parameter construction
failure, no valid observation, or accumulated weight at most `1e-12` (the
boundary case `weight_sum = 1e-12` is included, unlike the claim's strict
"below"); otherwise it returns the weighted root-mean-squared
total-variance error plus the anchor penalty. -/
theorem C4_sentinel (c : SVIModelCalibrator) (a b rho m sigma : ℝ)
    (data : List MarketDataRow) :
    (SVIParams.new c.expiration.2 a b rho m sigma = none →
      evaluate_objective c [a, b, rho, m, sigma] data = 1e12) ∧
    (∀ params, SVIParams.new c.expiration.2 a b rho m sigma = some params →
      (((validRows c.expiration.1 data).length = 0 ∨
          weightSum c.params c.expiration.1 data ≤ 1e-12) →
        evaluate_objective c [a, b, rho, m, sigma] data = 1e12) ∧
      (¬ ((validRows c.expiration.1 data).length = 0 ∨
          weightSum c.params c.expiration.1 data ≤ 1e-12) →
        evaluate_objective c [a, b, rho, m, sigma] data =
          Real.sqrt (weightedErrSum c.params c.expiration.1
              (SVISlice.new params) c.expiration.2 data /
            weightSum c.params c.expiration.1 data) +
          anchorPenalty c [a, b, rho, m, sigma])) := by
  refine ⟨fun hp => ?_, fun params hp => ⟨fun hcond => ?_, fun hcond => ?_⟩⟩
  · rw [evaluate_objective_eq, hp]
  · rw [evaluate_objective_eq, hp]
    dsimp only
    rw [if_pos hcond]
  · rw [evaluate_objective_eq, hp]
    dsimp only
    rw [if_neg hcond]

/-- Claim C4, counterexample.  A single valid ATM observation with vega
exactly `1e-12` gives accumulated weight exactly `1e-12`: the code returns
the sentinel (its test is `<=`), while the claim's conditions (construction
failure / no valid point / weight strictly below `1e-12`) all fail and the
claim predicts the weighted RMSE, which here is `0`. -/
theorem C4_counterexample :
    evaluate_objective cUnit [0, 1, 0, 0, 1] [rowTinyVega] = 1e12 ∧
    SVIParams.new cUnit.expiration.2 0 1 0 0 1 = some ⟨1, 0, 1, 0, 0, 1⟩ ∧
    (validRows cUnit.expiration.1 [rowTinyVega]).length = 1 ∧
    ¬ weightSum cUnit.params cUnit.expiration.1 [rowTinyVega] < 1e-12 ∧
    Real.sqrt (weightedErrSum cUnit.params cUnit.expiration.1
        (SVISlice.new ⟨1, 0, 1, 0, 0, 1⟩) cUnit.expiration.2 [rowTinyVega] /
      weightSum cUnit.params cUnit.expiration.1 [rowTinyVega]) +
      anchorPenalty cUnit [0, 1, 0, 0, 1] = 0 ∧
    (1e12 : ℝ) ≠ 0 := by
  have hk : kRow rowTinyVega = 0 := by
    show Real.log ((1:ℝ) / 1) = 0
    norm_num [Real.log_one]
  have hnew : SVIParams.new cUnit.expiration.2 0 1 0 0 1 =
      some ⟨1, 0, 1, 0, 0, 1⟩ :=
    new_rho_zero 1 0 1 1 one_pos one_pos one_pos (by norm_num)
  have hvr : validRows cUnit.expiration.1 [rowTinyVega] = [rowTinyVega] := by
    simp [validRows, rowTinyVega, cUnit]
  have hpw : pointWeight cUnit.params rowTinyVega.vega (kRow rowTinyVega) =
      1e-12 := by
    rw [hk]
    show (if (SviModelParams.default).use_vega_weighting = true then
      (if (0:ℝ) < rowTinyVega.vega then rowTinyVega.vega else 1) else 1) *
        Real.exp (-(SviModelParams.default).atm_boost_factor * |(0:ℝ)|) = _
    norm_num [SviModelParams.default, rowTinyVega, Real.exp_zero]
  have hws : weightSum cUnit.params cUnit.expiration.1 [rowTinyVega] =
      1e-12 := by
    unfold weightSum
    rw [hvr]
    simp [hpw]
  have hiv : (SVISlice.new ⟨1, 0, 1, 0, 0, 1⟩).implied_vol (kRow rowTinyVega) =
      1 := by
    rw [hk, iv_rho_zero 1 0 1 1 (by norm_num) (by norm_num)]
    norm_num [Real.sqrt_one]
  have hsq : rowSqErr (SVISlice.new ⟨1, 0, 1, 0, 0, 1⟩) cUnit.expiration.2
      rowTinyVega = 0 := by
    unfold rowSqErr
    rw [hiv]
    show ((1:ℝ) * 1 * 1 - rowTinyVega.market_iv * rowTinyVega.market_iv * 1) *
      (1 * 1 * 1 - rowTinyVega.market_iv * rowTinyVega.market_iv * 1) = 0
    norm_num [rowTinyVega]
  have hwes : weightedErrSum cUnit.params cUnit.expiration.1
      (SVISlice.new ⟨1, 0, 1, 0, 0, 1⟩) cUnit.expiration.2 [rowTinyVega] = 0 := by
    unfold weightedErrSum
    rw [hvr]
    simp [hsq]
  refine ⟨?_, hnew, by rw [hvr]; rfl, by rw [hws]; norm_num, ?_, by norm_num⟩
  · rw [evaluate_objective_eq, hnew]
    dsimp only
    rw [if_pos (Or.inr (le_of_eq hws))]
  · rw [hwes, hws]
    unfold anchorPenalty
    show Real.sqrt (0 / 1e-12) + 0 = 0
    norm_num [Real.sqrt_zero]

/-- Witness for C4: parameter construction fails for `b = 0`, and the
objective returns the sentinel. -/
theorem C4_witness :
    SVIParams.new cUnit.expiration.2 0 0 0 0 0 = none ∧
    evaluate_objective cUnit [0, 0, 0, 0, 0] [rowUnit] = 1e12 := by
  have hnone : SVIParams.new cUnit.expiration.2 0 0 0 0 0 = none := by
    unfold SVIParams.new
    rw [if_neg]
    rintro ⟨-, hb, -⟩
    exact lt_irrefl 0 hb
  exact ⟨hnone, (C4_sentinel cUnit 0 0 0 0 0 [rowUnit]).1 hnone⟩

/-! ## Claim C5: the adaptive loop keeps the best pair -/

section AdaptiveLoopTrace

/-- One-step unfolding of the adaptive loop in terms of the trace
functions.  All components are definitionally equal to the loop body. -/
lemma adaptiveLoop_succ (ext : ExternalOptimizers) (data : List MarketDataRow)
    (config : OptimizationConfig) (guess : Option (List ℝ)) (n : ℕ)
    (m : SVIModelCalibrator) (b : ℝ) (p : List ℝ) :
    adaptiveLoop ext data config guess (n + 1) m b p =
      (if iterFlag ext data config guess m 0 then
        adaptiveLoop ext data config guess n
          (advanceModel ext data config guess m)
          (bestUpd (b, p) (iterPair ext data config guess m 0)).1
          (bestUpd (b, p) (iterPair ext data config guess m 0)).2
      else ((bestUpd (b, p) (iterPair ext data config guess m 0)).1,
            (bestUpd (b, p) (iterPair ext data config guess m 0)).2,
            advanceModel ext data config guess m)) := rfl

/-- Loop characterisation when every iteration reports an adjustment: the
loop runs all `n` iterations, folds the incumbent update over the trace
pairs and ends in the `n`-times-advanced state. -/
lemma adaptiveLoop_no_stop (ext : ExternalOptimizers) (data : List MarketDataRow)
    (config : OptimizationConfig) (guess : Option (List ℝ)) :
    ∀ (n : ℕ) (m : SVIModelCalibrator) (b : ℝ) (p : List ℝ),
    (∀ i, i < n → iterFlag ext data config guess m i = true) →
    adaptiveLoop ext data config guess n m b p =
      ((((List.range n).map (iterPair ext data config guess m)).foldl
          bestUpd (b, p)).1,
       (((List.range n).map (iterPair ext data config guess m)).foldl
          bestUpd (b, p)).2,
       modelIter ext data config guess m n) := by
  intro n
  induction n with
  | zero =>
    intro m b p _
    rfl
  | succ n ih =>
    intro m b p h
    have h0 : iterFlag ext data config guess m 0 = true := h 0 (Nat.succ_pos n)
    rw [adaptiveLoop_succ, if_pos h0,
      ih (advanceModel ext data config guess m)
        (bestUpd (b, p) (iterPair ext data config guess m 0)).1
        (bestUpd (b, p) (iterPair ext data config guess m 0)).2
        (fun i hi => h (i + 1) (Nat.succ_lt_succ hi))]
    have hfold :
        ((List.range (n + 1)).map (iterPair ext data config guess m)).foldl
            bestUpd (b, p) =
          ((List.range n).map (iterPair ext data config guess
              (advanceModel ext data config guess m))).foldl bestUpd
            (bestUpd (b, p) (iterPair ext data config guess m 0)) := by
      rw [List.range_succ_eq_map, List.map_cons, List.foldl_cons, List.map_map]
      rfl
    rw [hfold]
    rfl

/-- Loop characterisation with an early stop at iteration `j < n`: the loop
executes exactly `j + 1` iterations. -/
lemma adaptiveLoop_stop (ext : ExternalOptimizers) (data : List MarketDataRow)
    (config : OptimizationConfig) (guess : Option (List ℝ)) :
    ∀ (j n : ℕ) (m : SVIModelCalibrator) (b : ℝ) (p : List ℝ),
    j < n →
    (∀ i, i < j → iterFlag ext data config guess m i = true) →
    iterFlag ext data config guess m j = false →
    adaptiveLoop ext data config guess n m b p =
      ((((List.range (j + 1)).map (iterPair ext data config guess m)).foldl
          bestUpd (b, p)).1,
       (((List.range (j + 1)).map (iterPair ext data config guess m)).foldl
          bestUpd (b, p)).2,
       modelIter ext data config guess m (j + 1)) := by
  intro j
  induction j with
  | zero =>
    intro n m b p hjn _ hflag
    cases n with
    | zero => exact absurd hjn (lt_irrefl 0)
    | succ n' =>
      rw [adaptiveLoop_succ, if_neg (by rw [hflag]; exact Bool.noConfusion)]
      rfl
  | succ j ih =>
    intro n m b p hjn h hflag
    cases n with
    | zero => exact absurd hjn (Nat.not_lt_zero _)
    | succ n' =>
      have h0 : iterFlag ext data config guess m 0 = true :=
        h 0 (Nat.succ_pos j)
      rw [adaptiveLoop_succ, if_pos h0,
        ih n' (advanceModel ext data config guess m)
          (bestUpd (b, p) (iterPair ext data config guess m 0)).1
          (bestUpd (b, p) (iterPair ext data config guess m 0)).2
          (Nat.lt_of_succ_lt_succ hjn)
          (fun i hi => h (i + 1) (Nat.succ_lt_succ hi)) hflag]
      have hfold :
          ((List.range (j + 1 + 1)).map (iterPair ext data config guess m)).foldl
              bestUpd (b, p) =
            ((List.range (j + 1)).map (iterPair ext data config guess
                (advanceModel ext data config guess m))).foldl bestUpd
              (bestUpd (b, p) (iterPair ext data config guess m 0)) := by
        rw [List.range_succ_eq_map, List.map_cons, List.foldl_cons,
          List.map_map]
        rfl
      rw [hfold]
      rfl

/-- Fold of the incumbent update: the result is the initial pair or a list
element, its objective is a lower bound of the initial one and of every
element's. -/
lemma foldl_bestUpd_min : ∀ (l : List (ℝ × List ℝ)) (init : ℝ × List ℝ),
    (l.foldl bestUpd init = init ∨ l.foldl bestUpd init ∈ l) ∧
    (l.foldl bestUpd init).1 ≤ init.1 ∧
    ∀ q ∈ l, (l.foldl bestUpd init).1 ≤ q.1 := by
  intro l
  induction l with
  | nil =>
    intro init
    simp
  | cons x xs ih =>
    intro init
    rw [List.foldl_cons]
    obtain ⟨hmem, hinit, hall⟩ := ih (bestUpd init x)
    have hbx : (bestUpd init x).1 ≤ init.1 ∧ (bestUpd init x).1 ≤ x.1 ∧
        (bestUpd init x = init ∨ bestUpd init x = x) := by
      unfold bestUpd
      split_ifs with h
      · exact ⟨le_of_lt h, le_rfl, Or.inr rfl⟩
      · exact ⟨le_rfl, not_lt.mp h, Or.inl rfl⟩
    refine ⟨?_, le_trans hinit hbx.1, ?_⟩
    · rcases hmem with h | h
      · rcases hbx.2.2 with h2 | h2
        · left
          rw [h, h2]
        · right
          rw [h, h2]
          exact List.mem_cons_self _ _
      · right
        exact List.mem_cons_of_mem _ h
    · intro q hq
      rcases List.mem_cons.mp hq with rfl | hq'
      · exact le_trans hinit hbx.2.1
      · exact hall q hq'

end AdaptiveLoopTrace

/-- Claim C5.  With adaptive bounds enabled and `max_iterations ≥ 1`, the
pipeline stops right after the first iteration whose expansion reports no
adjustment, returns the incumbent fold (the lowest objective seen with its
parameter vector, starting from `(f64::MAX, [])`) over exactly the executed
iterations, and pairs it with the bounds of the state after the final
iteration's expansion; the fold indeed yields an executed pair of minimal
objective whenever every executed objective is below `f64::MAX`. -/
theorem C5_adaptive_best (ext : ExternalOptimizers) (data : List MarketDataRow)
    (config : OptimizationConfig) (guess : Option (List ℝ))
    (model : SVIModelCalibrator)
    (hen : config.adaptive_bounds.enabled = true)
    (hn : 1 ≤ config.adaptive_bounds.max_iterations) :
    (∀ j, j < config.adaptive_bounds.max_iterations →
      (∀ i, i < j → iterFlag ext data config guess model i = true) →
      iterFlag ext data config guess model j = false →
      calibrate_model_adaptive ext model data config guess =
        ((((List.range (j + 1)).map (iterPair ext data config guess model)).foldl
            bestUpd (f64MAX, [])).1,
         (((List.range (j + 1)).map (iterPair ext data config guess model)).foldl
            bestUpd (f64MAX, [])).2,
         (modelIter ext data config guess model (j + 1)).param_bounds)) ∧
    ((∀ i, i < config.adaptive_bounds.max_iterations →
        iterFlag ext data config guess model i = true) →
      calibrate_model_adaptive ext model data config guess =
        ((((List.range config.adaptive_bounds.max_iterations).map
            (iterPair ext data config guess model)).foldl
            bestUpd (f64MAX, [])).1,
         (((List.range config.adaptive_bounds.max_iterations).map
            (iterPair ext data config guess model)).foldl
            bestUpd (f64MAX, [])).2,
         (modelIter ext data config guess model
            config.adaptive_bounds.max_iterations).param_bounds)) ∧
    (∀ (l : List (ℝ × List ℝ)), l ≠ [] → (∀ q ∈ l, q.1 < f64MAX) →
      l.foldl bestUpd (f64MAX, []) ∈ l ∧
      ∀ q ∈ l, (l.foldl bestUpd (f64MAX, [])).1 ≤ q.1) := by
  have hbranch : calibrate_model_adaptive ext model data config guess =
      (let r := adaptiveLoop ext data config guess
        config.adaptive_bounds.max_iterations model f64MAX []
       (r.1, r.2.1, r.2.2.param_bounds)) := by
    unfold calibrate_model_adaptive
    rw [if_neg (by simp [hen])]
  refine ⟨?_, ?_, ?_⟩
  · intro j hj hprev hflag
    rw [hbranch]
    dsimp only
    rw [adaptiveLoop_stop ext data config guess j
      config.adaptive_bounds.max_iterations model f64MAX [] hj hprev hflag]
  · intro hall
    rw [hbranch]
    dsimp only
    rw [adaptiveLoop_no_stop ext data config guess
      config.adaptive_bounds.max_iterations model f64MAX [] hall]
  · intro l hne hlt
    obtain ⟨hmem, -, hall⟩ := foldl_bestUpd_min l (f64MAX, [])
    refine ⟨?_, hall⟩
    rcases hmem with h | h
    · obtain ⟨q, hq⟩ := List.exists_mem_of_ne_nil l hne
      have h1 : (l.foldl bestUpd (f64MAX, [])).1 ≤ q.1 := hall q hq
      rw [h] at h1
      exact absurd (lt_of_le_of_lt h1 (hlt q hq)) (lt_irrefl _)
    · exact h

/-- Witness for C5: one adaptive iteration on an empty slice with an
interior warm start; the expansion does not fire, the loop stops after the
single iteration and the returned triple is the iteration's pair (objective
`1e12`, the guess) with the unchanged bounds. -/
theorem C5_witness :
    configAdaptiveOne.adaptive_bounds.enabled = true ∧
    1 ≤ configAdaptiveOne.adaptive_bounds.max_iterations ∧
    iterFlag extTrivial [] configAdaptiveOne (some guessInterior) cUnit 0 =
      false ∧
    calibrate_model_adaptive extTrivial cUnit [] configAdaptiveOne
      (some guessInterior) = (1e12, guessInterior, cUnit.param_bounds) := by
  have hexp : expandBoundsAux
      configAdaptiveOne.adaptive_bounds.proximity_threshold
      configAdaptiveOne.adaptive_bounds.expansion_factor cUnit.param_bounds
      guessInterior = (cUnit.param_bounds, false) := by
    show expandBoundsAux 0.1 0.25
      [(-0.5, 0.5), (0.01, 2), (-0.99, -0.01), (-1, 1), (0.01, 2)]
      [0, 1, -(1/2), 0, 1] =
      ([(-0.5, 0.5), (0.01, 2), (-0.99, -0.01), (-1, 1), (0.01, 2)], false)
    norm_num [expandBoundsAux]
  have hflagF : iterFlag extTrivial [] configAdaptiveOne (some guessInterior)
      cUnit 0 = false := by
    show (cUnit.expand_bounds_if_needed
      (calibrate_model extTrivial cUnit [] configAdaptiveOne
        (some guessInterior)).2
      configAdaptiveOne.adaptive_bounds.proximity_threshold
      configAdaptiveOne.adaptive_bounds.expansion_factor).2 = false
    rw [show (calibrate_model extTrivial cUnit [] configAdaptiveOne
      (some guessInterior)).2 = guessInterior from rfl]
    exact congrArg Prod.snd hexp
  have hbounds : (modelIter extTrivial [] configAdaptiveOne
      (some guessInterior) cUnit 1).param_bounds = cUnit.param_bounds := by
    show (expandBoundsAux
      configAdaptiveOne.adaptive_bounds.proximity_threshold
      configAdaptiveOne.adaptive_bounds.expansion_factor cUnit.param_bounds
      (calibrate_model extTrivial cUnit [] configAdaptiveOne
        (some guessInterior)).2).1 = cUnit.param_bounds
    rw [show (calibrate_model extTrivial cUnit [] configAdaptiveOne
      (some guessInterior)).2 = guessInterior from rfl]
    exact congrArg Prod.fst hexp
  have hobj : evaluate_objective cUnit guessInterior [] = 1e12 := by
    show evaluate_objective cUnit [0, 1, -(1/2), 0, 1] [] = 1e12
    rw [evaluate_objective_eq]
    cases hsvi : SVIParams.new cUnit.expiration.2 0 1 (-(1/2)) 0 1 with
    | none => rfl
    | some params =>
      dsimp only
      rw [if_pos (Or.inl (show (validRows cUnit.expiration.1 []).length = 0
        from rfl))]
  have hpair : iterPair extTrivial [] configAdaptiveOne (some guessInterior)
      cUnit 0 = (1e12, guessInterior) := by
    show calibrate_model extTrivial cUnit [] configAdaptiveOne
      (some guessInterior) = _
    rw [show calibrate_model extTrivial cUnit [] configAdaptiveOne
      (some guessInterior) =
      (evaluate_objective cUnit guessInterior [], guessInterior) from rfl, hobj]
  have hmain := (C5_adaptive_best extTrivial [] configAdaptiveOne
    (some guessInterior) cUnit rfl le_rfl).1 0 Nat.zero_lt_one
    (fun i hi => absurd hi (Nat.not_lt_zero i)) hflagF
  refine ⟨rfl, le_rfl, hflagF, ?_⟩
  rw [hmain]
  have hfold : ((List.range (0 + 1)).map (iterPair extTrivial []
      configAdaptiveOne (some guessInterior) cUnit)).foldl bestUpd
      (f64MAX, []) = (1e12, guessInterior) := by
    rw [show List.range (0 + 1) = [0] by decide, List.map_cons,
      List.map_nil, List.foldl_cons, List.foldl_nil, hpair]
    unfold bestUpd
    rw [if_pos (by norm_num [f64MAX])]
  rw [hfold, hbounds]

/-! ## Claim C10: totality of price_with_svi -/

section PriceOption

/-- Guard cascade of `price_option` over an SVI slice, with the
intermediate `total_variance` call inlined. -/
lemma price_option_eq (ot : String) (strike spot r q t : ℝ) (s : SVISlice) :
    price_option ot strike spot r q t s =
      (if FIVE_MINUTES_IN_YEARS < |t - s.params.t| then Except.error ()
       else if s.total_variance_at_k (log_moneyness strike spot) < 0 then
         Except.error ()
       else if s.total_variance_at_k (log_moneyness strike spot) ≤ 0 then
         Except.error ()
       else
         match black_scholes_price ot spot strike r q t
             (Real.sqrt (s.total_variance_at_k (log_moneyness strike spot) / t))
           with
         | .error e => .error e
         | .ok price =>
           .ok ⟨price, Real.sqrt
             (s.total_variance_at_k (log_moneyness strike spot) / t)⟩) := by
  unfold price_option SVISlice.total_variance
  dsimp only
  by_cases h1 : FIVE_MINUTES_IN_YEARS < |t - s.params.t|
  · rw [if_pos h1, if_pos h1]
  · rw [if_neg h1, if_neg h1]
    by_cases h2 : s.total_variance_at_k (log_moneyness strike spot) < 0
    · rw [if_pos h2, if_pos h2]
    · rw [if_neg h2, if_neg h2]

end PriceOption

/-- Claim C10.  `price_with_svi` returns exactly one `PricingResult` per
input observation (a permutation of the per-row results); whenever
`price_option` fails on a row — in particular on non-positive total
variance, on a requested time more than five minutes from the slice time,
or on an option type other than call/put — that row's model price and model
IV are `0.0`; and the final sort's comparator (`partial_cmp` with
`unwrap_or(Equal)`) is total even on NaN keys, so sorting cannot panic and
preserves the row count. -/
theorem C10_price_with_svi (params : SVIParams) (fp : FixedParameters) :
    (∀ data : List MarketDataRow,
      (price_with_svi params data fp).length = data.length ∧
      (price_with_svi params data fp).Perm
        (data.map (priceRow (SVISlice.new params) fp.r fp.q))) ∧
    (∀ row : MarketDataRow, ∀ e,
      price_option row.option_type row.strike_price row.underlying_price
        fp.r fp.q row.years_to_exp (SVISlice.new params) = .error e →
      (priceRow (SVISlice.new params) fp.r fp.q row).model_price = 0 ∧
      (priceRow (SVISlice.new params) fp.r fp.q row).model_iv = 0) ∧
    (∀ ot strike spot t, FIVE_MINUTES_IN_YEARS < |t - params.t| →
      price_option ot strike spot fp.r fp.q t (SVISlice.new params) =
        .error ()) ∧
    (∀ ot strike spot t,
      (SVISlice.new params).total_variance_at_k (log_moneyness strike spot) ≤
        0 →
      price_option ot strike spot fp.r fp.q t (SVISlice.new params) =
        .error ()) ∧
    (∀ ot strike spot t, toLowercase ot ≠ "call" → toLowercase ot ≠ "put" →
      price_option ot strike spot fp.r fp.q t (SVISlice.new params) =
        .error ()) ∧
    (∀ b : Option ℝ, strikeSortCmp none b = Ordering.eq ∧
      strikeSortCmp b none = Ordering.eq) ∧
    (∀ keys : List (Option ℝ),
      (keys.mergeSort (fun a b => strikeSortCmp a b ≠ Ordering.gt)).length =
        keys.length) := by
  refine ⟨?_, ?_, ?_, ?_, ?_, ?_, ?_⟩
  · intro data
    unfold price_with_svi
    constructor
    · rw [List.length_mergeSort, List.length_map]
    · exact (List.mergeSort_perm _ _)
  · intro row e he
    unfold priceRow
    rw [he]
    exact ⟨rfl, rfl⟩
  · intro ot strike spot t h
    rw [price_option_eq,
      if_pos (show FIVE_MINUTES_IN_YEARS <
        |t - (SVISlice.new params).params.t| from h)]
  · intro ot strike spot t hw
    rw [price_option_eq]
    by_cases ht : FIVE_MINUTES_IN_YEARS < |t - (SVISlice.new params).params.t|
    · rw [if_pos ht]
    · rw [if_neg ht]
      by_cases hneg : (SVISlice.new params).total_variance_at_k
          (log_moneyness strike spot) < 0
      · rw [if_pos hneg]
      · rw [if_neg hneg, if_pos hw]
  · intro ot strike spot t hcall hput
    rw [price_option_eq]
    by_cases ht : FIVE_MINUTES_IN_YEARS < |t - (SVISlice.new params).params.t|
    · rw [if_pos ht]
    · rw [if_neg ht]
      by_cases hneg : (SVISlice.new params).total_variance_at_k
          (log_moneyness strike spot) < 0
      · rw [if_pos hneg]
      · rw [if_neg hneg]
        by_cases hz : (SVISlice.new params).total_variance_at_k
            (log_moneyness strike spot) ≤ 0
        · rw [if_pos hz]
        · rw [if_neg hz]
          have hbs : black_scholes_price ot spot strike fp.r fp.q t
              (Real.sqrt ((SVISlice.new params).total_variance_at_k
                (log_moneyness strike spot) / t)) = .error () := by
            unfold black_scholes_price
            by_cases hs : Real.sqrt ((SVISlice.new params).total_variance_at_k
                (log_moneyness strike spot) / t) ≤ 0 ∨ t ≤ 0
            · rw [if_pos hs]
            · rw [if_neg hs]
              dsimp only
              rw [if_neg hcall, if_neg hput]
          rw [hbs]
  · intro b
    exact ⟨by cases b <;> rfl, by cases b <;> rfl⟩
  · intro keys
    rw [List.length_mergeSort]

/-- Witness for C10: a row whose time lies an hour from the slice time
fails pricing and is reported with zero price and IV, and the output has
one entry for the one input row. -/
theorem C10_witness :
    FIVE_MINUTES_IN_YEARS < |(2:ℝ) - (1:ℝ)| ∧
    price_option "call" 1 1 0 0 2 (SVISlice.new ⟨1, 0, 1, 0, 0, 1⟩) =
      .error () ∧
    (priceRow (SVISlice.new ⟨1, 0, 1, 0, 0, 1⟩) 0 0
      ⟨"call", 1, 1, 2, 1, 1, 0⟩).model_price = 0 ∧
    (priceRow (SVISlice.new ⟨1, 0, 1, 0, 0, 1⟩) 0 0
      ⟨"call", 1, 1, 2, 1, 1, 0⟩).model_iv = 0 ∧
    (price_with_svi ⟨1, 0, 1, 0, 0, 1⟩ [⟨"call", 1, 1, 2, 1, 1, 0⟩]
      ⟨0, 0⟩).length = 1 := by
  have h := C10_price_with_svi ⟨1, 0, 1, 0, 0, 1⟩ ⟨0, 0⟩
  have habs : FIVE_MINUTES_IN_YEARS < |(2:ℝ) - (1:ℝ)| := by
    rw [show |(2:ℝ) - 1| = 1 by rw [show (2:ℝ) - 1 = 1 by norm_num, abs_one]]
    norm_num [FIVE_MINUTES_IN_YEARS]
  have herr := h.2.2.1 "call" 1 1 2 habs
  have hrow := h.2.1 ⟨"call", 1, 1, 2, 1, 1, 0⟩ () herr
  exact ⟨habs, herr, hrow.1, hrow.2,
    (h.1 [⟨"call", 1, 1, 2, 1, 1, 0⟩]).1⟩

/-! ## Claim C8: evaluate_svi versus the calibrated objective -/

section ObjectiveConsistency

/-- The objective does not read the stored bounds. -/
lemma evaluate_objective_bounds_irrel (m : SVIModelCalibrator)
    (bb : List (ℝ × ℝ)) (x : List ℝ) (data : List MarketDataRow) :
    evaluate_objective { m with param_bounds := bb } x data =
      evaluate_objective m x data := rfl

/-- Advancing the adaptive state only rewrites the bounds, so the objective
is unchanged. -/
lemma advanceModel_eval (ext : ExternalOptimizers) (data : List MarketDataRow)
    (config : OptimizationConfig) (guess : Option (List ℝ))
    (m : SVIModelCalibrator) (x : List ℝ) (d : List MarketDataRow) :
    evaluate_objective (advanceModel ext data config guess m) x d =
      evaluate_objective m x d := rfl

/-- The objective seen from any iterate of the adaptive state equals the
objective of the initial state. -/
lemma modelIter_eval (ext : ExternalOptimizers) (data : List MarketDataRow)
    (config : OptimizationConfig) (guess : Option (List ℝ)) :
    ∀ (n : ℕ) (m : SVIModelCalibrator) (x : List ℝ) (d : List MarketDataRow),
    evaluate_objective (modelIter ext data config guess m n) x d =
      evaluate_objective m x d := by
  intro n
  induction n with
  | zero => intro m x d; rfl
  | succ n ih =>
    intro m x d
    have hs : modelIter ext data config guess m (n + 1) =
        modelIter ext data config guess
          (advanceModel ext data config guess m) n := rfl
    rw [hs, ih (advanceModel ext data config guess m) x d,
      advanceModel_eval]

/-- When the external refiner reports the true objective of its returned
point, `calibrate_model` returns a pair whose objective is the objective of
its parameter vector. -/
lemma calibrate_model_fst (ext : ExternalOptimizers) (m : SVIModelCalibrator)
    (data : List MarketDataRow) (config : OptimizationConfig)
    (guess : Option (List ℝ))
    (hlb : ∀ start bounds f iters tol r,
      ext.lbfgsb start bounds f iters tol = .ok r → r.1 = f r.2) :
    (calibrate_model ext m data config guess).1 =
      evaluate_objective m (calibrate_model ext m data config guess).2
        data := by
  have hst : (calibrate_model_stage1 ext m data config guess).1 =
      evaluate_objective m
        (calibrate_model_stage1 ext m data config guess).2 data := by
    unfold calibrate_model_stage1
    cases guess with
    | none => rfl
    | some g =>
      dsimp only
      by_cases hm : config.cmaes.mini_cmaes_on_refinement = true
      · rw [if_pos hm]
      · rw [if_neg hm]
  unfold calibrate_model
  dsimp only
  by_cases hl : config.cmaes.lbfgsb_enabled = true
  · rw [if_pos hl]
    cases hres : ext.lbfgsb (calibrate_model_stage1 ext m data config guess).2
        m.param_bounds (fun x => evaluate_objective m x data)
        config.cmaes.lbfgsb_max_iterations config.tolerance with
    | error e => exact hst
    | ok r =>
      dsimp only
      split_ifs with himp
      · exact hlb _ _ _ _ _ r hres
      · exact hst
  · rw [if_neg hl]
    exact hst

/-- Invariant of the adaptive loop: the running incumbent is either the
untouched initial pair `(f64::MAX, [])` or a pair whose objective is the
initial calibrator's objective at its parameter vector. -/
lemma adaptiveLoop_inv (ext : ExternalOptimizers) (data : List MarketDataRow)
    (config : OptimizationConfig) (guess : Option (List ℝ))
    (c0 : SVIModelCalibrator)
    (hlb : ∀ start bounds f iters tol r,
      ext.lbfgsb start bounds f iters tol = .ok r → r.1 = f r.2) :
    ∀ (n : ℕ) (m : SVIModelCalibrator) (b : ℝ) (p : List ℝ),
    (∀ x d, evaluate_objective m x d = evaluate_objective c0 x d) →
    ((b, p) = ((f64MAX, []) : ℝ × List ℝ) ∨
      b = evaluate_objective c0 p data) →
    (((adaptiveLoop ext data config guess n m b p).1,
      (adaptiveLoop ext data config guess n m b p).2.1) =
        ((f64MAX, []) : ℝ × List ℝ) ∨
      (adaptiveLoop ext data config guess n m b p).1 =
        evaluate_objective c0
          (adaptiveLoop ext data config guess n m b p).2.1 data) := by
  intro n
  induction n with
  | zero =>
    intro m b p _ hbp
    exact hbp
  | succ n ih =>
    intro m b p hm hbp
    have hpair : (calibrate_model ext m data config guess).1 =
        evaluate_objective c0
          (calibrate_model ext m data config guess).2 data := by
      rw [calibrate_model_fst ext m data config guess hlb, hm]
    have hbest : ((bestUpd (b, p) (calibrate_model ext m data config guess)).1,
          (bestUpd (b, p) (calibrate_model ext m data config guess)).2) =
            ((f64MAX, []) : ℝ × List ℝ) ∨
        (bestUpd (b, p) (calibrate_model ext m data config guess)).1 =
          evaluate_objective c0
            (bestUpd (b, p) (calibrate_model ext m data config guess)).2
            data := by
      unfold bestUpd
      split_ifs with himp
      · exact Or.inr hpair
      · exact hbp
    rw [adaptiveLoop_succ]
    by_cases hf : iterFlag ext data config guess m 0 = true
    · rw [if_pos hf]
      exact ih (advanceModel ext data config guess m) _ _
        (fun x d => hm x d) hbest
    · rw [if_neg hf]
      exact hbest

end ObjectiveConsistency

/-- Claim C8, amended.  Suppose the external L-BFGS-B refiner reports the
true objective value of its returned point.  When `calibrate_svi` is called
WITHOUT an initial guess (so no temporal-regularisation anchor is
installed), the objective value `f` it returns equals `evaluate_svi` of the
returned parameter vector exactly (difference `0`, hence within `1e-10`),
for every slice, configuration and calibration settings, adaptive
iterations included; with an initial guess the equality fails in general
(see the counterexample) because the calibration objective carries the
anchor penalty which `evaluate_svi` omits. -/
theorem C8_objective_consistency (ext : ExternalOptimizers)
    (data : List MarketDataRow) (config : OptimizationConfig)
    (cp : CalibrationParams)
    (hlb : ∀ start bounds f iters tol r,
      ext.lbfgsb start bounds f iters tol = .ok r → r.1 = f r.2) :
    ∀ (t0 a b rho m sigma f : ℝ) (bds : SVIParamBounds),
    calibrate_svi ext data config cp none =
      some (f, [a, b, rho, m, sigma], bds) →
    evaluate_svi data ⟨t0, a, b, rho, m, sigma⟩ cp = some f := by
  intro t0 a b rho m sigma f bds hcal
  unfold calibrate_svi at hcal
  cases hnew : SVIModelCalibrator.new data cp.param_bounds cp.model_params with
  | none =>
    rw [hnew] at hcal
    exact absurd hcal (by simp)
  | some c0 =>
    rw [hnew] at hcal
    dsimp only at hcal
    have hparts := (Option.some.injEq _ _).mp hcal
    have h1 : (calibrate_model_adaptive ext c0 data config none).1 = f :=
      congrArg Prod.fst hparts
    have h2 : (calibrate_model_adaptive ext c0 data config none).2.1 =
        [a, b, rho, m, sigma] :=
      congrArg (fun z => z.2.1) hparts
    have hinv : ((calibrate_model_adaptive ext c0 data config none).1,
          (calibrate_model_adaptive ext c0 data config none).2.1) =
            ((f64MAX, []) : ℝ × List ℝ) ∨
        (calibrate_model_adaptive ext c0 data config none).1 =
          evaluate_objective c0
            (calibrate_model_adaptive ext c0 data config none).2.1 data := by
      unfold calibrate_model_adaptive
      by_cases hen : config.adaptive_bounds.enabled = false
      · rw [if_pos hen]
        exact Or.inr (calibrate_model_fst ext c0 data config none hlb)
      · rw [if_neg hen]
        exact adaptiveLoop_inv ext data config none c0 hlb
          config.adaptive_bounds.max_iterations c0 f64MAX []
          (fun x d => rfl) (Or.inl rfl)
    rcases hinv with hmax | hval
    · have hsnd : (calibrate_model_adaptive ext c0 data config none).2.1 =
          ([] : List ℝ) := congrArg Prod.snd hmax
      have hcontra : ([] : List ℝ) = [a, b, rho, m, sigma] :=
        hsnd.symm.trans h2
      simp at hcontra
    · unfold evaluate_svi
      rw [hnew]
      dsimp only
      rw [← h2, ← hval, h1]

section ConcreteEvaluation

/-- Log-moneyness vanishes when strike equals spot equals one. -/
lemma kRow_atm (row : MarketDataRow) (h1 : row.strike_price = 1)
    (h2 : row.underlying_price = 1) : kRow row = 0 := by
  unfold kRow log_moneyness
  rw [h1, h2]
  norm_num [Real.log_one]

/-- The unit row is a valid observation for expiry tag 0. -/
lemma validRows_rowUnit : validRows 0 [rowUnit] = [rowUnit] := by
  simp [validRows, rowUnit]

/-- Weight of the unit row under the default model parameters. -/
lemma pointWeight_rowUnit :
    pointWeight SviModelParams.default rowUnit.vega (kRow rowUnit) = 1 := by
  rw [kRow_atm rowUnit rfl rfl]
  unfold pointWeight SviModelParams.default
  norm_num [rowUnit, Real.exp_zero]

/-- Weight sum over the singleton unit slice. -/
lemma weightSum_rowUnit : weightSum SviModelParams.default 0 [rowUnit] = 1 := by
  unfold weightSum
  rw [validRows_rowUnit]
  simp [pointWeight_rowUnit]

/-- Squared total-variance error of the unit row against the slice
`(1, 0, 2, 0, 0, 1)` (ATM variance 2 versus market total variance 1). -/
lemma rowSqErr_two :
    rowSqErr (SVISlice.new ⟨1, 0, 2, 0, 0, 1⟩) 1 rowUnit = 1 := by
  unfold rowSqErr
  rw [show (SVISlice.new ⟨1, 0, 2, 0, 0, 1⟩).implied_vol (kRow rowUnit) =
      Real.sqrt 2 from by
    rw [kRow_atm rowUnit rfl rfl,
      iv_rho_zero 1 0 2 1 (by norm_num) (by norm_num)]
    norm_num]
  dsimp only
  rw [Real.mul_self_sqrt (by norm_num : (0:ℝ) ≤ 2)]
  norm_num [rowUnit]

/-- Weighted squared-error sum over the singleton unit slice against the
slice `(1, 0, 2, 0, 0, 1)`. -/
lemma weightedErrSum_two :
    weightedErrSum SviModelParams.default 0 (SVISlice.new ⟨1, 0, 2, 0, 0, 1⟩)
      1 [rowUnit] = 1 := by
  unfold weightedErrSum
  rw [validRows_rowUnit]
  simp [pointWeight_rowUnit, rowSqErr_two]

/-- Projection-friendly restatement of the closed form of the objective. -/
lemma evaluate_objective_eq2 (c : SVIModelCalibrator) (e : ℤ) (t : ℝ)
    (p : SviModelParams) (he : c.expiration = (e, t)) (hp : c.params = p)
    (a b rho m sigma : ℝ) (data : List MarketDataRow) :
    evaluate_objective c [a, b, rho, m, sigma] data =
      (match SVIParams.new t a b rho m sigma with
       | none => (1e12 : ℝ)
       | some params =>
         if (validRows e data).length = 0 ∨ weightSum p e data ≤ 1e-12 then
           1e12
         else
           Real.sqrt (weightedErrSum p e (SVISlice.new params) t data /
             weightSum p e data) + anchorPenalty c [a, b, rho, m, sigma]) := by
  rw [evaluate_objective_eq, he, hp]

/-- Objective of the un-anchored unit calibrator at `[0, 2, 0, 0, 1]`. -/
lemma eval_cUnit_x8 :
    evaluate_objective cUnit [0, 2, 0, 0, 1] [rowUnit] = 1 := by
  rw [evaluate_objective_eq2 cUnit 0 1 SviModelParams.default rfl rfl,
    new_rho_zero 1 0 2 1 one_pos (by norm_num) one_pos (by norm_num)]
  dsimp only
  rw [if_neg (not_or.mpr ⟨by rw [validRows_rowUnit]; norm_num,
    by rw [weightSum_rowUnit]; norm_num⟩)]
  rw [weightedErrSum_two, weightSum_rowUnit,
    show anchorPenalty cUnit [0, 2, 0, 0, 1] = 0 from rfl]
  norm_num [Real.sqrt_one]

/-- Objective of the anchored calibrator at `[0, 2, 0, 0, 1]`: the plain
objective `1` plus the anchor penalty `1e-2 * 1`. -/
lemma eval_cAnchored_x8 :
    evaluate_objective cAnchored [0, 2, 0, 0, 1] [rowUnit] = 101/100 := by
  rw [evaluate_objective_eq2 cAnchored 0 1 SviModelParams.default rfl rfl,
    new_rho_zero 1 0 2 1 one_pos (by norm_num) one_pos (by norm_num)]
  dsimp only
  rw [if_neg (not_or.mpr ⟨by rw [validRows_rowUnit]; norm_num,
    by rw [weightSum_rowUnit]; norm_num⟩)]
  rw [weightedErrSum_two, weightSum_rowUnit]
  have hpen : anchorPenalty cAnchored [0, 2, 0, 0, 1] = 1/100 := by
    show (if (0:ℝ) < 1e-2 ∧
        ([0, 1, 0, 0, 1] : List ℝ).length = ([0, 2, 0, 0, 1] : List ℝ).length
      then (List.zipWith (fun v p => (v - p) ^ 2)
        ([0, 2, 0, 0, 1] : List ℝ) [0, 1, 0, 0, 1]).sum * 1e-2
      else 0) = 1/100
    rw [if_pos ⟨by norm_num, rfl⟩]
    norm_num [List.zipWith]
  rw [hpen]
  norm_num [Real.sqrt_one]

end ConcreteEvaluation

/-- Claim C8, counterexample.  With the warm start `[0,1,0,0,1]` supplied,
`reg_lambda` defaults to `1e-2` and the calibration objective carries the
anchor penalty: a contract-respecting CMA-ES returning `[0,2,0,0,1]` makes
`calibrate_svi` report `f = 1.01` while `evaluate_svi` of the returned
vector is `1`; the difference `0.01` far exceeds `1e-10`. -/
theorem C8_counterexample :
    calibrate_svi extC8 [rowUnit] configC8 CalibrationParams.default
      (some guessC8) =
      some (101/100, [0, 2, 0, 0, 1], SVIParamBounds.default) ∧
    evaluate_svi [rowUnit] ⟨1, 0, 2, 0, 0, 1⟩ CalibrationParams.default =
      some 1 ∧
    ¬ |(1 : ℝ) - 101/100| ≤ 1e-10 := by
  have hnew : SVIModelCalibrator.new [rowUnit]
      CalibrationParams.default.param_bounds
      CalibrationParams.default.model_params = some cUnit := new_rowUnit
  refine ⟨?_, ?_, ?_⟩
  · unfold calibrate_svi
    rw [hnew]
    dsimp only
    have hsetter : (cUnit.set_prev_solution guessC8).set_temporal_reg_lambda
        (CalibrationParams.default.reg_lambda.getD 1e-2) = cAnchored := by
      unfold SVIModelCalibrator.set_prev_solution
      rw [if_pos (show guessC8.length = cUnit.param_bounds.length from rfl)]
      unfold SVIModelCalibrator.set_temporal_reg_lambda
      show SVIModelCalibrator.mk (0, 1)
        [(-0.5, 0.5), (0.01, 2), (-0.99, -0.01), (-1, 1), (0.01, 2)]
        SviModelParams.default (some [0, 1, 0, 0, 1])
        (max (CalibrationParams.default.reg_lambda.getD 1e-2) 0) = cAnchored
      rw [show max (CalibrationParams.default.reg_lambda.getD 1e-2) 0 =
        (1e-2 : ℝ) from by
          rw [show CalibrationParams.default.reg_lambda.getD 1e-2 =
            (1e-2 : ℝ) from rfl]
          exact max_eq_left (by norm_num)]
      rfl
    rw [hsetter]
    rw [show calibrate_model_adaptive extC8 cAnchored [rowUnit] configC8
        (some guessC8) =
        ((calibrate_model extC8 cAnchored [rowUnit] configC8 (some guessC8)).1,
         (calibrate_model extC8 cAnchored [rowUnit] configC8 (some guessC8)).2,
         cAnchored.param_bounds) from by
      unfold calibrate_model_adaptive
      rw [if_pos (show configC8.adaptive_bounds.enabled = false from rfl)]]
    rw [show calibrate_model extC8 cAnchored [rowUnit] configC8
        (some guessC8) =
        (evaluate_objective cAnchored [0, 2, 0, 0, 1] [rowUnit],
         [0, 2, 0, 0, 1]) from rfl]
    rw [eval_cAnchored_x8]
    rfl
  · unfold evaluate_svi
    rw [hnew]
    dsimp only
    rw [eval_cUnit_x8]
  · have habs : |(1:ℝ) - 101/100| = 1/100 := by
      rw [show (1:ℝ) - 101/100 = -(1/100) by norm_num, abs_neg,
        abs_of_nonneg (by norm_num : (0:ℝ) ≤ 1/100)]
    rw [habs]
    norm_num

/-- Witness for C8: the always-failing refiner satisfies the reporting
contract vacuously; without a warm start the same pipeline instance returns
`f = 1` at `[0,2,0,0,1]`, and `evaluate_svi` (with an arbitrary `t` field,
here `5`) reproduces it exactly. -/
theorem C8_witness :
    (∀ start bounds f iters tol r,
      extC8.lbfgsb start bounds f iters tol = .ok r → r.1 = f r.2) ∧
    calibrate_svi extC8 [rowUnit] configC8 CalibrationParams.default none =
      some (1, [0, 2, 0, 0, 1], SVIParamBounds.default) ∧
    evaluate_svi [rowUnit] ⟨5, 0, 2, 0, 0, 1⟩ CalibrationParams.default =
      some 1 := by
  have hlb : ∀ start bounds f iters tol r,
      extC8.lbfgsb start bounds f iters tol = .ok r → r.1 = f r.2 := by
    intro start bounds f iters tol r h
    exact Except.noConfusion h
  have hnew : SVIModelCalibrator.new [rowUnit]
      CalibrationParams.default.param_bounds
      CalibrationParams.default.model_params = some cUnit := new_rowUnit
  have hcal : calibrate_svi extC8 [rowUnit] configC8 CalibrationParams.default
      none = some (1, [0, 2, 0, 0, 1], SVIParamBounds.default) := by
    unfold calibrate_svi
    rw [hnew]
    dsimp only
    rw [show calibrate_model_adaptive extC8 cUnit [rowUnit] configC8 none =
        ((calibrate_model extC8 cUnit [rowUnit] configC8 none).1,
         (calibrate_model extC8 cUnit [rowUnit] configC8 none).2,
         cUnit.param_bounds) from by
      unfold calibrate_model_adaptive
      rw [if_pos (show configC8.adaptive_bounds.enabled = false from rfl)]]
    rw [show calibrate_model extC8 cUnit [rowUnit] configC8 none =
        (evaluate_objective cUnit [0, 2, 0, 0, 1] [rowUnit],
         [0, 2, 0, 0, 1]) from rfl]
    rw [eval_cUnit_x8]
    rfl
  exact ⟨hlb, hcal,
    C8_objective_consistency extC8 [rowUnit] configC8 CalibrationParams.default
      hlb 5 0 2 0 0 1 1 SVIParamBounds.default hcal⟩

end Surface
